import Mathlib

/-!
Shallow embedding of `ifxcli.c` (a Tcl extension exposing Informix/ODBC
database operations).  The repository consists of one C translation unit:

* `read_odbc_ini` / `build_connection_string`: pure text processing,
  embedded below as executable functions on characters and strings.
* the Tcl commands (`ifx::connect`, `ifx::execute`, `ifx::fetch`,
  `ifx::close_result`, `ifx::disconnect`) and `Ifxcli_Init`: stateful code
  whose external calls (ODBC driver manager, Tcl library) are modelled by
  explicit oracle records carrying the return codes and data those calls
  produce; the interpreter's per-name associated data (`Tcl_SetAssocData`,
  `Tcl_GetAssocData`, `Tcl_DeleteAssocData`) is modelled as an association
  list with Tcl's unique-key semantics.

Files are modelled as the list of lines delivered by successive `fgets`
calls (each retaining its trailing newline); a path for which `fopen`
fails maps to `none`.  Fixed-size C buffers are modelled by `List.take` at
the corresponding capacity.
-/

/- ### SQL return codes (from sql.h) -/

def SQL_SUCCESS : Int := 0
def SQL_SUCCESS_WITH_INFO : Int := 1
def SQL_NO_DATA : Int := 100

/- ### Tcl result codes -/

inductive TclCode where
  | ok
  | error
deriving DecidableEq, Repr

/- ### DSN configuration structure (struct DsnConfig)

The C struct holds fixed-size char arrays (driver[512], database[256],
server[256], host[256], service[64], protocol[64], user[256],
password[256]); the capacity minus one reappears as a `List.take` bound
where the code `snprintf`s into a field. -/

structure DsnConfig where
  driver : String
  database : String
  server : String
  host : String
  service : String
  protocol : String
  user : String
  password : String
deriving DecidableEq, Repr

/-- `memset(config, 0, sizeof(DsnConfig))`: every field is the empty
string. -/
def zeroConfig : DsnConfig := ⟨"", "", "", "", "", "", "", ""⟩

/- ### Character-level helpers used by read_odbc_ini -/

/-- The whitespace skipped by the C parser's trim loops: space and tab. -/
def isWs (c : Char) : Bool := c == ' ' || c == '\t'

/-- Whitespace stripped from the end of a value: space, tab or newline. -/
def isVWs (c : Char) : Bool := c == ' ' || c == '\t' || c == '\n'

/-- Strip leading spaces/tabs (the `while (*p==' '||*p=='\t') p++` loops). -/
def ltrim (l : List Char) : List Char := l.dropWhile isWs

/-- Strip trailing spaces/tabs from a key (the `*k-- = '\0'` loop). -/
def rtrimKey (l : List Char) : List Char := (l.reverse.dropWhile isWs).reverse

/-- Strip trailing spaces/tabs/newlines from a value (the `*vend-- = '\0'`
loop). -/
def rtrimVal (l : List Char) : List Char := (l.reverse.dropWhile isVWs).reverse

/-- ASCII `tolower`, as used by `strcasecmp` in the C locale. -/
def lowerChar (c : Char) : Char :=
  if 'A' ≤ c ∧ c ≤ 'Z' then Char.ofNat (c.toNat + 32) else c

/-- `strchr(p, '=')` followed by splitting the line at the first `=`:
`none` when the line has no `=`, otherwise the text before and after it. -/
def splitEq (l : List Char) : Option (List Char × List Char) :=
  if l.contains '=' then
    some (l.takeWhile (fun c => c ≠ '='), (l.dropWhile (fun c => c ≠ '=')).tail)
  else none

/-- The configuration fields a `key=value` line can set. -/
inductive FieldId where
  | driver
  | database
  | server
  | host
  | service
  | protocol
  | user
  | password
deriving DecidableEq, Repr

/-- What one line of an odbc.ini file does to the scanner state; computed
exactly as the body of the `while (fgets(...))` loop in `read_odbc_ini`:
leading whitespace is skipped, comment/empty lines do nothing, a
`[section]` header (a line whose first non-blank character is `[`, with a
non-empty name of at most 255 characters accepted by
`sscanf(p, "[%255[^]]]", section)`) resets the in-section flag by a
character-for-character `strcmp` against the DSN, and inside the section a
line containing `=` stores a field selected by `strcasecmp` on the
trimmed key.  A bracket line whose `sscanf` fails (empty name) leaves the
flag unchanged, exactly as in the C code. -/
inductive LineAct where
  | skip
  | setSec (isDsn : Bool)
  | setField (f : FieldId) (v : List Char)
deriving DecidableEq, Repr

def classifyLine (dsn : String) (inSec : Bool) (line : List Char) : LineAct :=
  match line.dropWhile isWs with
  | [] => .skip
  | c :: rest =>
    if c = '#' ∨ c = ';' ∨ c = '\n' then .skip
    else if c = '[' then
      let sec := (rest.takeWhile (fun x => x ≠ ']')).take 255
      if sec = [] then .skip else .setSec (String.mk sec = dsn)
    else if inSec then
      match splitEq (c :: rest) with
      | none => .skip
      | some (k0, v0) =>
        let key := (rtrimKey (k0.take 255)).map lowerChar
        let v := ltrim (rtrimVal (v0.take 511))
        if key = "driver".data then .setField .driver v
        else if key = "database".data then .setField .database v
        else if key = "server".data ∨ key = "servername".data then .setField .server v
        else if key = "host".data then .setField .host v
        else if key = "service".data ∨ key = "port".data then .setField .service v
        else if key = "protocol".data then .setField .protocol v
        else if key = "uid".data ∨ key = "logonid".data then .setField .user v
        else if key = "pwd".data ∨ key = "password".data then .setField .password v
        else .skip
    else .skip

/-- `snprintf(config->field, sizeof(...), "%s", v)`: store a value,
truncated to the field's capacity minus one. -/
def storeField (c : DsnConfig) : FieldId → List Char → DsnConfig
  | .driver, v => { c with driver := String.mk (v.take 511) }
  | .database, v => { c with database := String.mk (v.take 255) }
  | .server, v => { c with server := String.mk (v.take 255) }
  | .host, v => { c with host := String.mk (v.take 255) }
  | .service, v => { c with service := String.mk (v.take 63) }
  | .protocol, v => { c with protocol := String.mk (v.take 63) }
  | .user, v => { c with user := String.mk (v.take 255) }
  | .password, v => { c with password := String.mk (v.take 255) }

/-- Scanner state of `read_odbc_ini`: the `in_section` and `found` flags
and the configuration being filled in. -/
structure ScanSt where
  inSection : Bool
  found : Bool
  config : DsnConfig
deriving DecidableEq, Repr

/-- One iteration of the `while (fgets(...))` loop.  `found` is set
exactly by a `driver` key (`found = 1` appears only in that branch). -/
def processLine (dsn : String) (s : ScanSt) (line : List Char) : ScanSt :=
  match classifyLine dsn s.inSection line with
  | .skip => s
  | .setSec b => { s with inSection := b }
  | .setField f v =>
      { s with found := s.found || (f == FieldId.driver),
               config := storeField s.config f v }

/-- The whole `while (fgets(...))` loop over one file's lines. -/
def runLines (dsn : String) : List (List Char) → ScanSt → ScanSt
  | [], s => s
  | l :: ls, s => runLines dsn ls (processLine dsn s l)

/-- Whether scanning a file's lines (with `in_section` starting at 0)
encounters a `driver` key inside the `dsn` section; this is the event
that sets `found = 1` in the C code. -/
def hasDriverFrom (dsn : String) : Bool → List (List Char) → Bool
  | _, [] => false
  | i, l :: ls =>
    match classifyLine dsn i l with
    | .skip => hasDriverFrom dsn i ls
    | .setSec b => hasDriverFrom dsn b ls
    | .setField f _ => (f == FieldId.driver) || hasDriverFrom dsn i ls

def fileHasDriver (dsn : String) (ls : List (List Char)) : Bool :=
  hasDriverFrom dsn false ls

/-- The `for (int i = 0; i < num_paths; i++)` loop of `read_odbc_ini`:
try each candidate file in order (a path mapped to `none` fails `fopen`
and is skipped), reset `in_section` at the start of each file, and return
1 as soon as a file ends with `found` set. -/
def scanPaths (dsn : String) (fs : String → Option (List (List Char))) :
    List String → ScanSt → Bool × DsnConfig
  | [], s => (false, s.config)
  | p :: rest, s =>
    match fs p with
    | none => scanPaths dsn fs rest s
    | some ls =>
      let s' := runLines dsn ls { s with inSection := false }
      if s'.found then (true, s'.config) else scanPaths dsn fs rest s'

/-- The relevant environment variables (`getenv` returning NULL is
`none`). -/
structure OdbcEnv where
  odbcini : Option String
  home : Option String
  odbcsysini : Option String
deriving DecidableEq, Repr

/-- The candidate odbc.ini path list, in the order `read_odbc_ini` builds
it: `$ODBCINI` when set and non-empty, then `$HOME/.odbc.ini` when HOME
is set and non-empty, then `$ODBCSYSINI/odbc.ini` when set and non-empty,
then `/etc/odbc.ini`.  Each `snprintf` into `ini_paths[i][512]` truncates
to 511 characters. -/
def candidatePaths (e : OdbcEnv) : List String :=
  (match e.odbcini with
   | some s => if s ≠ "" then [s.take 511] else []
   | none => []) ++
  (match e.home with
   | some h => if h ≠ "" then [(h ++ "/.odbc.ini").take 511] else []
   | none => []) ++
  (match e.odbcsysini with
   | some d => if d ≠ "" then [(d ++ "/odbc.ini").take 511] else []
   | none => []) ++
  ["/etc/odbc.ini"]

/-- `read_odbc_ini(dsn, config)`: returns the C function's return value
(1 as `true`, 0 as `false`) and the configuration it wrote, starting from
the `memset`-zeroed configuration. -/
def read_odbc_ini (e : OdbcEnv) (fs : String → Option (List (List Char)))
    (dsn : String) : Bool × DsnConfig :=
  scanPaths dsn fs (candidatePaths e) ⟨false, false, zeroConfig⟩

/- ### build_connection_string

The C function appends `snprintf`-formatted segments to a caller-supplied
buffer of `bufsize` bytes (`IfxConnect_Cmd` passes a 2048-byte buffer),
keeping a running `len` of the would-be output length:

    len += snprintf(conn_str + len, bufsize - len, "KEY=%s;", value);

`snprintf` writes at most `size - 1` bytes plus a NUL and returns the
full untruncated length, so `len` can run past `bufsize`; a later call
then computes a pointer past the buffer and a negative size that converts
to a huge `size_t` — undefined behaviour, modelled as `none`.  A call
with `len = bufsize` has size 0 and writes nothing, which is defined. -/

/-- One `len += snprintf(conn_str + len, bufsize - len, …)` step over the
running `(written so far, len)` state. -/
def snprintfStep (bufsize : Nat) (st : Option (String × Nat)) (seg : String) :
    Option (String × Nat) :=
  match st with
  | none => none
  | some (out, len) =>
    if bufsize < len then none
    else
      let room := bufsize - len
      let written := if room = 0 then "" else String.mk (seg.data.take (room - 1))
      some (out ++ written, len + seg.length)

/-- The `snprintf` calls `build_connection_string` performs, in order:
each element is the full (untruncated) text one call would produce, and a
false condition performs no call.  This is the C function's sequence of
`if (config->field[0])` guards and `snprintf` formats. -/
def connSegments (config : DsnConfig) (dsn user password : String) :
    List String :=
  ["DSN=" ++ dsn ++ ";"]
  ++ (if config.database ≠ "" then ["DATABASE=" ++ config.database ++ ";"] else [])
  ++ (if config.host ≠ "" then ["HOST=" ++ config.host ++ ";"] else [])
  ++ (if config.server ≠ "" then ["SERVER=" ++ config.server ++ ";"] else [])
  ++ (if config.service ≠ "" then ["SERVICE=" ++ config.service ++ ";"] else [])
  ++ (if config.protocol ≠ "" then ["PROTOCOL=" ++ config.protocol ++ ";"] else [])
  ++ (if user ≠ "" then ["UID=" ++ user ++ ";"]
      else if config.user ≠ "" then ["UID=" ++ config.user ++ ";"] else [])
  ++ (if password ≠ "" then ["PWD=" ++ password ++ ";"]
      else if config.password ≠ "" then ["PWD=" ++ config.password ++ ";"] else [])

/-- `build_connection_string(config, dsn, user, password, conn_str,
bufsize)`: the buffer contents after the snprintf chain, or `none` when
the chain runs into the undefined snprintf call described above. -/
def build_connection_string (config : DsnConfig) (dsn user password : String)
    (bufsize : Nat) : Option String :=
  ((connSegments config dsn user password).foldl (snprintfStep bufsize)
    (some ("", 0))).map Prod.fst

/-- Concatenation of a segment list (the untruncated ideal output). -/
def strConcat : List String → String
  | [] => ""
  | s :: rest => s ++ strConcat rest

/-- An optional `KEY=value;` segment that appears exactly when the value
is non-empty (the `if (config->field[0])` pattern); `key` carries the
trailing `=`. -/
def optSeg (key v : String) : String :=
  if v ≠ "" then key ++ v ++ ";" else ""

/-- A credential segment: the explicit argument wins when non-empty,
otherwise the odbc.ini field when non-empty, otherwise the segment is
omitted (the `if (user && user[0]) ... else if (config->user[0])`
pattern); `key` carries the trailing `=`. -/
def credSeg (key arg cfg : String) : String :=
  if arg ≠ "" then key ++ arg ++ ";"
  else if cfg ≠ "" then key ++ cfg ++ ";" else ""

/-- Lines 250-253 of `ifxcli.c`: when `read_odbc_ini` returns 0 the
configuration is `memset` back to zero before building the connection
string. -/
def effectiveConfig (e : OdbcEnv) (fs : String → Option (List (List Char)))
    (dsn : String) : DsnConfig :=
  let r := read_odbc_ini e fs dsn
  if r.1 then r.2 else zeroConfig

/- ### Interpreter-state model

`Tcl_SetAssocData` / `Tcl_GetAssocData` / `Tcl_DeleteAssocData` maintain a
per-interpreter map from names to client data with unique keys; modelled
as an association list.  The values stored by this extension are the
`IfxConnection` and `IfxResultSet` structures (ODBC handles stand in as
natural numbers).  The `static int` counters of `IfxConnect_Cmd` and
`IfxExecute_Cmd` are part of the state. -/

structure IfxConnection where
  henv : Nat
  hdbc : Nat
  connected : Bool
deriving DecidableEq, Repr

structure IfxResultSet where
  hstmt : Nat
  num_cols : Nat
  col_names : List String
deriving DecidableEq, Repr

inductive AssocVal where
  | conn (c : IfxConnection)
  | result (r : IfxResultSet)
deriving DecidableEq, Repr

structure InterpState where
  assoc : List (String × AssocVal)
  conn_counter : Nat
  result_counter : Nat
deriving DecidableEq, Repr

/-- `Tcl_GetAssocData`. -/
def getA : List (String × AssocVal) → String → Option AssocVal
  | [], _ => none
  | (k', v') :: t, k => if k' = k then some v' else getA t k

def getAssoc (st : InterpState) (k : String) : Option AssocVal :=
  getA st.assoc k

/-- `Tcl_SetAssocData`: replace the entry for the key if present,
otherwise add one. -/
def setA : List (String × AssocVal) → String → AssocVal → List (String × AssocVal)
  | [], k, v => [(k, v)]
  | (k', v') :: t, k, v =>
    if k' = k then (k, v) :: t else (k', v') :: setA t k v

/-- `Tcl_DeleteAssocData`. -/
def delA : List (String × AssocVal) → String → List (String × AssocVal)
  | [], _ => []
  | (k', v') :: t, k => if k' = k then t else (k', v') :: delA t k

/- ### Handle names

`snprintf(conn_name, sizeof(conn_name), "ifxconn%d", ++conn_counter)` and
`snprintf(result_name, ..., "ifxresult%d", ++result_counter)`.  `decStr`
is the decimal rendering `%d` produces (the counters are non-negative). -/

def decStr (n : Nat) : String :=
  if n = 0 then "0"
  else String.mk ((Nat.digits 10 n).reverse.map fun d => Char.ofNat (48 + d))

def connName (n : Nat) : String := "ifxconn" ++ decStr n

def resName (n : Nat) : String := "ifxresult" ++ decStr n

/- ### ifx::connect (IfxConnect_Cmd)

The ODBC calls are oracles: `envAllocRet`/`dbcAllocRet` are the
`SQLAllocHandle` return codes (with the handle values the driver would
produce), `connRet` is the `SQLDriverConnect` return code and
`diagState`/`diagMsg` the `SQLGetDiagRec` output used for the error
message.  The result records, besides the Tcl return code, the
interpreter result string, the new state, which allocations happened and
which were freed again, and the connection string that was built. -/

structure ConnectOracle where
  envAllocRet : Int
  henv : Nat
  dbcAllocRet : Int
  hdbc : Nat
  connRet : Int
  diagState : String
  diagMsg : String
deriving DecidableEq, Repr

structure ConnectResult where
  code : TclCode
  result : String
  state : InterpState
  connStr : Option String
  envAllocated : Bool
  envFreed : Bool
  dbcAllocated : Bool
  dbcFreed : Bool
  structAllocated : Bool
  structFreed : Bool
deriving DecidableEq, Repr

/-- `ifx::connect dsn ?user? ?password?`.  `objv` is the full argument
vector including the command name (`objc = objv.length`); `user` and
`password` default to the empty string when the optional arguments are
absent (`List.getD` with default `""` is exactly the C code's
`user = ""` / `objc >= 3` pattern).  The "wrong number of args" message
text is produced by `Tcl_WrongNumArgs` inside the Tcl library; its exact
wording is external to this code. -/
def IfxConnect_Cmd (e : OdbcEnv) (fs : String → Option (List (List Char)))
    (o : ConnectOracle) (st : InterpState) (objv : List String) : ConnectResult :=
  if objv.length < 2 ∨ 4 < objv.length then
    ⟨.error, "wrong number of args: should be ifx::connect dsn ?user? ?password?",
     st, none, false, false, false, false, false, false⟩
  else
    let dsn := objv.getD 1 ""
    let config := effectiveConfig e fs dsn
    let user := objv.getD 2 ""
    let password := objv.getD 3 ""
    let conn_str := build_connection_string config dsn user password 2048
    if o.envAllocRet ≠ SQL_SUCCESS then
      ⟨.error, "Failed to allocate environment handle",
       st, conn_str, false, false, false, false, true, true⟩
    else if o.dbcAllocRet ≠ SQL_SUCCESS then
      ⟨.error, "Failed to allocate connection handle",
       st, conn_str, true, true, false, false, true, true⟩
    else if o.connRet ≠ SQL_SUCCESS ∧ o.connRet ≠ SQL_SUCCESS_WITH_INFO then
      ⟨.error, "Failed to connect: [" ++ o.diagState ++ "] " ++ o.diagMsg,
       st, conn_str, true, true, true, true, true, true⟩
    else
      let n := st.conn_counter + 1
      ⟨.ok, connName n,
       { assoc := setA st.assoc (connName n) (.conn ⟨o.henv, o.hdbc, true⟩),
         conn_counter := n,
         result_counter := st.result_counter },
       conn_str, true, false, true, false, true, false⟩

/- ### ifx::execute (IfxExecute_Cmd) -/

structure ExecOracle where
  allocRet : Int
  hstmt : Nat
  execRet : Int
  diagRet : Int
  diagState : String
  diagNative : Int
  diagMsg : String
  numCols : Nat
  colName : Nat → String

structure ExecResult where
  code : TclCode
  result : String
  state : InterpState
  execCalls : List String
  stmtFreed : Bool
deriving DecidableEq, Repr

/-- The error message `IfxExecute_Cmd` builds from `SQLGetDiagRec`. -/
def execDiagMsg (o : ExecOracle) : String :=
  if o.diagRet = SQL_SUCCESS ∨ o.diagRet = SQL_SUCCESS_WITH_INFO then
    "SQL error [" ++ o.diagState ++ "] (" ++ toString o.diagNative ++ "): "
      ++ o.diagMsg
  else
    "SQL execution failed (ret=" ++ toString o.execRet
      ++ ", no diagnostic available)"

/-- `ifx::execute conn_handle sql ?params?`.  `execCalls` records the SQL
strings passed to `SQLExecDirect`.  The C code casts the associated data
to `IfxConnection*` without checking what kind of handle the name
denotes; a name bound to a result set would be reinterpreted (undefined
behaviour in C).  The model routes that case to the invalid-handle
branch; the theorems below only concern names bound to connections. -/
def IfxExecute_Cmd (o : ExecOracle) (st : InterpState) (objv : List String) :
    ExecResult :=
  if objv.length < 3 then
    ⟨.error, "wrong number of args: should be ifx::execute conn_handle sql ?params?",
     st, [], false⟩
  else
    let conn_name := objv.getD 1 ""
    let sql := objv.getD 2 ""
    match getAssoc st conn_name with
    | some (.conn c) =>
      if c.connected then
        if o.allocRet ≠ SQL_SUCCESS then
          ⟨.error, "Failed to allocate statement handle", st, [], false⟩
        else if o.execRet ≠ SQL_SUCCESS ∧ o.execRet ≠ SQL_SUCCESS_WITH_INFO
            ∧ o.execRet ≠ SQL_NO_DATA then
          ⟨.error, execDiagMsg o, st, [sql], true⟩
        else
          let r : IfxResultSet :=
            ⟨o.hstmt, o.numCols, (List.range o.numCols).map o.colName⟩
          let n := st.result_counter + 1
          ⟨.ok, resName n,
           { assoc := setA st.assoc (resName n) (.result r),
             conn_counter := st.conn_counter,
             result_counter := n },
           [sql], false⟩
      else ⟨.error, "Invalid connection handle", st, [], false⟩
    | _ => ⟨.error, "Invalid connection handle", st, [], false⟩

/- ### ifx::fetch (IfxFetch_Cmd) -/

structure FetchOracle where
  fetchRet : Int
  getRet : Nat → Int
  isNull : Nat → Bool
  colVal : Nat → String

/-- A Tcl interpreter result: a plain string or a dict object. -/
inductive TclValue where
  | str (s : String)
  | dict (d : List (String × String))
deriving DecidableEq, Repr

/-- `Tcl_DictObjPut`: overwrite the value in place when the key is
already present, otherwise append the pair. -/
def dictPut (d : List (String × String)) (k v : String) :
    List (String × String) :=
  if d.any (fun p => p.1 == k) then
    d.map (fun p => if p.1 == k then (k, v) else p)
  else d ++ [(k, v)]

/-- The `for (int i = 0; i < result->num_cols; i++)` loop of
`IfxFetch_Cmd`: per column, `SQLGetData` with `SQL_C_CHAR` (modelled by
the oracle's per-column return code, NULL indicator and string value);
only a column whose `SQLGetData` returns `SQL_SUCCESS` is added, a NULL
column is added with the empty object `Tcl_NewObj()`. -/
def fetchCols (o : FetchOracle) (r : IfxResultSet) : List (String × String) :=
  (List.range r.num_cols).foldl
    (fun d i =>
      if o.getRet i = SQL_SUCCESS then
        dictPut d (r.col_names.getD i "")
          (if o.isNull i then "" else o.colVal i)
      else d)
    []

/-- `ifx::fetch result_handle`.  As in `IfxExecute_Cmd`, the C cast to
`IfxResultSet*` is unchecked; the model routes a wrong-kind name to the
invalid-handle branch and the theorems only concern names bound to
result sets.  Fetch never modifies the interpreter's associated data, so
only the code and the produced value are returned. -/
def IfxFetch_Cmd (o : FetchOracle) (st : InterpState) (objv : List String) :
    TclCode × TclValue :=
  if objv.length ≠ 2 then
    (.error, .str "wrong number of args: should be ifx::fetch result_handle")
  else
    match getAssoc st (objv.getD 1 "") with
    | some (.result r) =>
      if o.fetchRet = SQL_NO_DATA then (.ok, .str "")
      else if o.fetchRet ≠ SQL_SUCCESS ∧ o.fetchRet ≠ SQL_SUCCESS_WITH_INFO then
        (.error, .str "Fetch failed")
      else (.ok, .dict (fetchCols o r))
    | _ => (.error, .str "Invalid result handle")

/- ### ifx::close_result and ifx::disconnect -/

structure CloseResult where
  code : TclCode
  state : InterpState
  freedStmts : List Nat
deriving DecidableEq, Repr

/-- `ifx::close_result result_handle`: when the name has associated data
the statement handle is freed, the column names and the structure
released, and the associated data deleted; otherwise nothing happens and
TCL_OK is returned.  (For a name bound to a connection the C code would
reinterpret the bytes; the frees on reinterpreted fields are not
modelled and the theorems below do not rely on that branch's `freedStmts`.) -/
def IfxCloseResult_Cmd (st : InterpState) (objv : List String) : CloseResult :=
  if objv.length ≠ 2 then
    ⟨.error, st, []⟩
  else
    let name := objv.getD 1 ""
    match getAssoc st name with
    | none => ⟨.ok, st, []⟩
    | some (.result r) => ⟨.ok, { st with assoc := delA st.assoc name }, [r.hstmt]⟩
    | some (.conn _) => ⟨.ok, { st with assoc := delA st.assoc name }, []⟩

structure DisconnectResult where
  code : TclCode
  state : InterpState
  freedHandles : List Nat
  calledDisconnect : Bool
deriving DecidableEq, Repr

/-- `ifx::disconnect conn_handle`: when the name has associated data,
`SQLDisconnect` is called if the connection is marked connected, both
ODBC handles are freed, the structure released and the associated data
deleted; otherwise nothing happens and TCL_OK is returned.  (Wrong-kind
names: same remark as for `IfxCloseResult_Cmd`.) -/
def IfxDisconnect_Cmd (st : InterpState) (objv : List String) : DisconnectResult :=
  if objv.length ≠ 2 then
    ⟨.error, st, [], false⟩
  else
    let name := objv.getD 1 ""
    match getAssoc st name with
    | none => ⟨.ok, st, [], false⟩
    | some (.conn c) =>
        ⟨.ok, { st with assoc := delA st.assoc name }, [c.hdbc, c.henv], c.connected⟩
    | some (.result r) =>
        ⟨.ok, { st with assoc := delA st.assoc name }, [r.hstmt], false⟩

/- ### Ifxcli_Init -/

structure InitOracle where
  stubsOk : Bool
  nsOk : Bool
  pkgOk : Bool
deriving DecidableEq, Repr

structure InitResult where
  code : TclCode
  registered : List String
  nsCreated : Bool
  pkgProvided : Bool
deriving DecidableEq, Repr

/-- The commands `Ifxcli_Init` registers, in registration order. -/
def ifxCommands : List String :=
  ["::ifx::connect", "::ifx::execute", "::ifx::fetch",
   "::ifx::close_result", "::ifx::disconnect"]

/-- `Ifxcli_Init`: `Tcl_InitStubs`, then `Tcl_CreateNamespace "::ifx"`,
then the five `Tcl_CreateObjCommand` calls, then `Tcl_PkgProvide`; a
failure of any of the three checked calls returns TCL_ERROR. -/
def Ifxcli_Init (o : InitOracle) : InitResult :=
  if o.stubsOk = false then ⟨.error, [], false, false⟩
  else if o.nsOk = false then ⟨.error, [], false, false⟩
  else if o.pkgOk = false then ⟨.error, ifxCommands, true, false⟩
  else ⟨.ok, ifxCommands, true, true⟩

/- ### Session invariants for handle names

In any state reachable by these commands, every bound `ifxconn<k>` /
`ifxresult<k>` name was issued with a counter value at most the current
one; equivalently, names above the counter are unbound. -/

def connInv (st : InterpState) : Prop :=
  ∀ k : Nat, st.conn_counter < k → getAssoc st (connName k) = none

def resInv (st : InterpState) : Prop :=
  ∀ k : Nat, st.result_counter < k → getAssoc st (resName k) = none

/- ### Concrete fixtures used by the witness theorems -/

def eW : OdbcEnv := ⟨none, none, none⟩

def fsW : String → Option (List (List Char)) := fun p =>
  if p = "/etc/odbc.ini" then
    some ["[mydsn]\n".data, "Driver = /opt/ifx.so\n".data, "database=db\n".data]
  else none

def fsNone : String → Option (List (List Char)) := fun _ => none

/-- Agrees with `fsW` on `/etc/odbc.ini` and differs everywhere else. -/
def fsW2 : String → Option (List (List Char)) := fun p =>
  if p = "/etc/odbc.ini" then fsW p else some ["driver=zzz\n".data]

def stEmpty : InterpState := ⟨[], 0, 0⟩

def connW : IfxConnection := ⟨1, 2, true⟩

def stConn : InterpState := ⟨[("c", .conn connW)], 5, 7⟩

def resW : IfxResultSet := ⟨3, 2, ["a", "b"]⟩

def stRes : InterpState := ⟨[("r", .result resW)], 0, 0⟩

def cfgBob : DsnConfig := ⟨"", "", "", "", "", "", "bob", "pw2"⟩

/-- A 3000-character DSN: its `DSN=…;` segment (3005 bytes) overflows the
2048-byte buffer `ifx::connect` passes. -/
def dsnLong : String := String.mk (List.replicate 3000 'a')

/-- A 2040-character DSN: its `DSN=…;` segment (2045 bytes) fits, but the
following `UID=…;` segment is truncated after two characters. -/
def dsn2040 : String := String.mk (List.replicate 2040 'a')

def oConnOk : ConnectOracle := ⟨0, 1, 0, 2, 0, "", ""⟩

def oConnFail : ConnectOracle := ⟨0, 1, 0, 2, -1, "08001", "no server"⟩

def oExecOk : ExecOracle := ⟨0, 9, 0, 0, "", 0, "", 2, fun i => "col" ++ decStr i⟩

def oExecFail : ExecOracle := ⟨0, 9, -1, 0, "42000", 5, "syntax error", 0, fun _ => ""⟩

def oFetchOk : FetchOracle := ⟨0, fun _ => 0, fun i => i == 1, fun i => "v" ++ decStr i⟩

def oFetchNoData : FetchOracle := ⟨100, fun _ => 0, fun _ => false, fun _ => ""⟩

def oFetchBad : FetchOracle := ⟨-1, fun _ => 0, fun _ => false, fun _ => ""⟩

def oInitOk : InitOracle := ⟨true, true, true⟩

/-! ## Helper lemmas -/

/-- The effect of one line splits into the effect from a cleared `found`
flag: the next section flag and configuration ignore `found`, and `found`
is monotone (once 1, never reset). -/
theorem processLine_split (dsn : String) (i f : Bool) (c : DsnConfig)
    (l : List Char) :
    processLine dsn ⟨i, f, c⟩ l =
      ⟨(processLine dsn ⟨i, false, c⟩ l).inSection,
       f || (processLine dsn ⟨i, false, c⟩ l).found,
       (processLine dsn ⟨i, false, c⟩ l).config⟩ := by
  cases h : classifyLine dsn i l <;> simp [processLine, h]

/-- Across a file, the `found` flag ends set iff it started set or a
`driver` key was seen inside the `dsn` section. -/
theorem runLines_found (dsn : String) (ls : List (List Char)) :
    ∀ (i f : Bool) (c : DsnConfig),
      (runLines dsn ls ⟨i, f, c⟩).found = (f || hasDriverFrom dsn i ls) := by
  induction ls with
  | nil => intro i f c; simp [runLines, hasDriverFrom]
  | cons l t ih =>
    intro i f c
    cases h : classifyLine dsn i l with
    | skip =>
      simp [runLines, hasDriverFrom, h, processLine, ih]
    | setSec b =>
      simp [runLines, hasDriverFrom, h, processLine, ih]
    | setField fld v =>
      simp [runLines, hasDriverFrom, h, processLine, ih, Bool.or_assoc]

/-- The path loop returns 1 iff some openable candidate file scans to a
`driver` key in the `dsn` section. -/
theorem scanPaths_eq_true_iff (dsn : String)
    (fs : String → Option (List (List Char))) :
    ∀ (ps : List String) (s : ScanSt), s.found = false →
      ((scanPaths dsn fs ps s).1 = true ↔
        ∃ p ∈ ps, ∃ ls, fs p = some ls ∧ fileHasDriver dsn ls = true) := by
  intro ps
  induction ps with
  | nil => intro s hs; simp [scanPaths]
  | cons p rest ih =>
    intro s hs
    cases hfp : fs p with
    | none =>
      simp only [scanPaths, hfp]
      rw [ih s hs]
      constructor
      · rintro ⟨q, hq, ls, hls, hd⟩
        exact ⟨q, List.mem_cons_of_mem _ hq, ls, hls, hd⟩
      · rintro ⟨q, hq, ls, hls, hd⟩
        rcases List.mem_cons.mp hq with rfl | hq'
        · rw [hfp] at hls; cases hls
        · exact ⟨q, hq', ls, hls, hd⟩
    | some ls =>
      have hrun : (runLines dsn ls { s with inSection := false }).found
          = fileHasDriver dsn ls := by
        have : ({ s with inSection := false } : ScanSt)
            = ⟨false, s.found, s.config⟩ := rfl
        rw [this, hs, runLines_found]
        simp [fileHasDriver]
      simp only [scanPaths, hfp]
      by_cases hd : fileHasDriver dsn ls = true
      · rw [if_pos (by rw [hrun]; exact hd)]
        simp only [true_iff]
        exact ⟨p, List.mem_cons_self p rest, ls, hfp, hd⟩
      · have hff : (runLines dsn ls { s with inSection := false }).found = false := by
          rw [hrun]; exact (Bool.not_eq_true _).mp hd
        rw [if_neg (by rw [hff]; exact Bool.false_ne_true)]
        rw [ih _ hff]
        constructor
        · rintro ⟨q, hq, ls', hls', hd'⟩
          exact ⟨q, List.mem_cons_of_mem _ hq, ls', hls', hd'⟩
        · rintro ⟨q, hq, ls', hls', hd'⟩
          rcases List.mem_cons.mp hq with rfl | hq'
          · rw [hfp] at hls'
            cases hls'
            exact absurd hd' hd
          · exact ⟨q, hq', ls', hls', hd'⟩

/-- When no candidate file opens, the scan leaves the state untouched and
returns 0 with the configuration it started from. -/
theorem scanPaths_all_none (dsn : String)
    (fs : String → Option (List (List Char))) :
    ∀ (ps : List String) (s : ScanSt), (∀ p ∈ ps, fs p = none) →
      scanPaths dsn fs ps s = (false, s.config) := by
  intro ps
  induction ps with
  | nil => intro s _; rfl
  | cons p rest ih =>
    intro s h
    have hp : fs p = none := h p (List.mem_cons_self p rest)
    simp only [scanPaths, hp]
    exact ih s (fun q hq => h q (List.mem_cons_of_mem _ hq))

/-- Scanning stops at the first file containing a `driver` key in the
`dsn` section: any two file systems that agree on the paths up to and
including that file produce the same result. -/
theorem scanPaths_agree (dsn : String)
    (fs fs' : String → Option (List (List Char))) :
    ∀ (pre : List String) (p : String) (post : List String) (s : ScanSt),
      (∀ q ∈ pre ++ [p], fs q = fs' q) →
      (∃ ls, fs p = some ls ∧ fileHasDriver dsn ls = true) →
      scanPaths dsn fs (pre ++ p :: post) s = scanPaths dsn fs' (pre ++ p :: post) s := by
  intro pre
  induction pre with
  | nil =>
    intro p post s hag hdrv
    obtain ⟨ls, hls, hd⟩ := hdrv
    have hag' : fs' p = some ls := by
      rw [← hag p (by simp), hls]
    have hfound : (runLines dsn ls { s with inSection := false }).found = true := by
      have he : ({ s with inSection := false } : ScanSt)
          = ⟨false, s.found, s.config⟩ := rfl
      rw [he, runLines_found]
      simp only [fileHasDriver] at hd
      simp [hd]
    simp only [List.nil_append, scanPaths, hls, hag', if_pos hfound]
  | cons q pre' ih =>
    intro p post s hag hdrv
    have hq : fs q = fs' q := hag q (List.mem_cons_self _ _)
    have hagr : ∀ r ∈ pre' ++ [p], fs r = fs' r :=
      fun r hr => hag r (List.mem_cons_of_mem q hr)
    cases hfq : fs q with
    | none =>
      have hfq' : fs' q = none := by rw [← hq, hfq]
      simp only [List.cons_append, scanPaths, hfq, hfq']
      exact ih p post s hagr hdrv
    | some ls =>
      have hfq' : fs' q = some ls := by rw [← hq, hfq]
      simp only [List.cons_append, scanPaths, hfq, hfq']
      by_cases hf : (runLines dsn ls { s with inSection := false }).found = true
      · rw [if_pos hf, if_pos hf]
      · rw [if_neg hf, if_neg hf]
        exact ih p post _ hagr hdrv

/-! ## Claim theorems -/

/-- Claim C1: `read_odbc_ini` resolves a DSN by scanning the candidate
odbc.ini files in the fixed priority order `$ODBCINI` (if set and
non-empty), then `$HOME/.odbc.ini` (if HOME is set and non-empty), then
`$ODBCSYSINI/odbc.ini` (if set and non-empty), then `/etc/odbc.ini`
(fourth conjunct); starting from the zero-initialised configuration (an
unopenable candidate list returns exactly `(0, zeroConfig)`, second
conjunct); it returns 1 exactly when some scanned candidate file contains
a Driver key inside the `dsn` section (first conjunct, with the section
scoping, case-insensitive trimmed key matching and character-for-character
section comparison embedded in `fileHasDriver`/`classifyLine`); and it
stops after the first such file: files after it cannot affect the result
(third conjunct). -/
theorem read_odbc_ini_correct (e : OdbcEnv)
    (fs fs' : String → Option (List (List Char))) (dsn : String) :
    (((read_odbc_ini e fs dsn).1 = true) ↔
       ∃ p ∈ candidatePaths e, ∃ ls, fs p = some ls ∧ fileHasDriver dsn ls = true)
  ∧ ((∀ p ∈ candidatePaths e, fs p = none) →
       read_odbc_ini e fs dsn = (false, zeroConfig))
  ∧ (∀ pre p post, candidatePaths e = pre ++ p :: post →
       (∀ q ∈ pre ++ [p], fs q = fs' q) →
       (∃ ls, fs p = some ls ∧ fileHasDriver dsn ls = true) →
       read_odbc_ini e fs dsn = read_odbc_ini e fs' dsn)
  ∧ candidatePaths e =
      (match e.odbcini with
       | some s => if s ≠ "" then [s.take 511] else []
       | none => []) ++
      (match e.home with
       | some h => if h ≠ "" then [(h ++ "/.odbc.ini").take 511] else []
       | none => []) ++
      (match e.odbcsysini with
       | some d => if d ≠ "" then [(d ++ "/odbc.ini").take 511] else []
       | none => []) ++
      ["/etc/odbc.ini"] := by
  refine ⟨?_, ?_, ?_, rfl⟩
  · exact scanPaths_eq_true_iff dsn fs (candidatePaths e) ⟨false, false, zeroConfig⟩ rfl
  · intro h
    exact scanPaths_all_none dsn fs (candidatePaths e) ⟨false, false, zeroConfig⟩ h
  · intro pre p post hsplit hag hdrv
    unfold read_odbc_ini
    rw [hsplit]
    exact scanPaths_agree dsn fs fs' pre p post ⟨false, false, zeroConfig⟩ hag hdrv

/-- Concrete instantiation of `read_odbc_ini_correct`: with no relevant
environment variables set, a `/etc/odbc.ini` containing a Driver key in
the `[mydsn]` section makes the lookup succeed; an empty file system
yields `(0, zeroConfig)`; and changing files after the first hit does not
change the result. -/
theorem read_odbc_ini_correct_witness :
    (read_odbc_ini eW fsW "mydsn").1 = true
  ∧ read_odbc_ini eW fsNone "mydsn" = (false, zeroConfig)
  ∧ read_odbc_ini eW fsW "mydsn" = read_odbc_ini eW fsW2 "mydsn" := by
  refine ⟨?_, ?_, ?_⟩
  · exact (read_odbc_ini_correct eW fsW fsW "mydsn").1.mpr
      ⟨"/etc/odbc.ini", by decide,
       ["[mydsn]\n".data, "Driver = /opt/ifx.so\n".data, "database=db\n".data],
       rfl, by decide⟩
  · exact (read_odbc_ini_correct eW fsNone fsNone "mydsn").2.1
      (fun p _ => rfl)
  · exact (read_odbc_ini_correct eW fsW fsW2 "mydsn").2.2.1
      [] "/etc/odbc.ini" [] rfl
      (by intro q hq; simp at hq; subst hq; rfl)
      ⟨["[mydsn]\n".data, "Driver = /opt/ifx.so\n".data, "database=db\n".data],
       rfl, by decide⟩

/-- Folding the snprintf chain from `none` stays `none`. -/
theorem snprintfChain_none (bufsize : Nat) :
    ∀ segs : List String, segs.foldl (snprintfStep bufsize) none = none := by
  intro segs
  induction segs with
  | nil => rfl
  | cons s rest ih => simp [List.foldl_cons, snprintfStep, ih]

/-- Whatever the snprintf chain produces fits in the buffer: at most
`bufsize - 1` bytes (the written prefix, NUL excluded). -/
theorem snprintfChain_bound (bufsize : Nat) :
    ∀ (segs : List String) (out : String) (len : Nat) (res : String × Nat),
      out.length ≤ len → out.length ≤ bufsize - 1 →
      segs.foldl (snprintfStep bufsize) (some (out, len)) = some res →
      res.1.length ≤ bufsize - 1 := by
  intro segs
  induction segs with
  | nil =>
    intro out len res h1 h2 h3
    simp only [List.foldl_nil, Option.some.injEq] at h3
    rw [← h3]
    exact h2
  | cons s rest ih =>
    intro out len res h1 h2 h3
    rw [List.foldl_cons] at h3
    by_cases hb : bufsize < len
    · rw [show snprintfStep bufsize (some (out, len)) s = none by
        simp [snprintfStep, hb]] at h3
      rw [snprintfChain_none] at h3
      cases h3
    · rw [show snprintfStep bufsize (some (out, len)) s
          = some (out ++ (if bufsize - len = 0 then ""
              else String.mk (s.data.take (bufsize - len - 1))), len + s.length) by
        simp [snprintfStep, hb]] at h3
      refine ih _ _ res ?_ ?_ h3
      · rw [String.length_append]
        by_cases hroom : bufsize - len = 0
        · rw [if_pos hroom, show ("" : String).length = 0 from rfl]
          omega
        · rw [if_neg hroom]
          have htk : (String.mk (s.data.take (bufsize - len - 1))).length
              ≤ s.length := by
            show (s.data.take (bufsize - len - 1)).length ≤ s.data.length
            rw [List.length_take]
            exact Nat.min_le_right _ _
          omega
      · rw [String.length_append]
        by_cases hroom : bufsize - len = 0
        · rw [if_pos hroom, show ("" : String).length = 0 from rfl]
          omega
        · rw [if_neg hroom]
          have htk : (String.mk (s.data.take (bufsize - len - 1))).length
              ≤ bufsize - len - 1 := by
            show (s.data.take (bufsize - len - 1)).length ≤ bufsize - len - 1
            rw [List.length_take]
            exact Nat.min_le_left _ _
          omega

/-- When the segments fit in the buffer (total length at most
`bufsize - 1`), nothing is truncated: the chain writes exactly their
concatenation. -/
theorem snprintfChain_fits (bufsize : Nat) :
    ∀ (segs : List String) (out : String) (len : Nat),
      out.length = len →
      len + (segs.map String.length).sum < bufsize →
      segs.foldl (snprintfStep bufsize) (some (out, len))
        = some (out ++ strConcat segs, len + (segs.map String.length).sum) := by
  intro segs
  induction segs with
  | nil =>
    intro out len hol hfit
    simp [List.foldl_nil, strConcat, String.append_empty]
  | cons s rest ih =>
    intro out len hol hfit
    simp only [List.map_cons, List.sum_cons] at hfit
    have hb : ¬ bufsize < len := by omega
    have hroom : ¬ bufsize - len = 0 := by omega
    have hdl : s.data.length = s.length := rfl
    have hsl : s.length ≤ bufsize - len - 1 := by omega
    have hsfit : s.data.length ≤ bufsize - len - 1 := by rw [hdl]; exact hsl
    have hwritten : String.mk (s.data.take (bufsize - len - 1)) = s := by
      rw [List.take_of_length_le hsfit]
    rw [List.foldl_cons,
      show snprintfStep bufsize (some (out, len)) s = some (out ++ s, len + s.length) by
        simp [snprintfStep, hb, hroom, hwritten]]
    rw [ih (out ++ s) (len + s.length) (by rw [String.length_append, hol])
      (by omega)]
    simp only [List.map_cons, List.sum_cons, strConcat]
    rw [String.append_assoc, Nat.add_assoc]

/-- Concatenation distributes over list append. -/
theorem strConcat_append (xs ys : List String) :
    strConcat (xs ++ ys) = strConcat xs ++ strConcat ys := by
  induction xs with
  | nil => simp [strConcat, String.empty_append]
  | cons s t ih => simp [strConcat, ih, String.append_assoc]

/-- The optional-segment guard, as a one-element segment list. -/
theorem strConcat_opt (k v : String) :
    strConcat (if v ≠ "" then [k ++ v ++ ";"] else []) = optSeg k v := by
  by_cases h : v = "" <;> simp [strConcat, optSeg, h, String.append_empty]

/-- The credential guard, as a one-element segment list. -/
theorem strConcat_cred (k a c : String) :
    strConcat (if a ≠ "" then [k ++ a ++ ";"]
      else if c ≠ "" then [k ++ c ++ ";"] else []) = credSeg k a c := by
  by_cases h : a = "" <;> by_cases h2 : c = "" <;>
    simp [strConcat, credSeg, h, h2, String.append_empty]

/-- The untruncated output of the chain is the `DSN=`-then-segments
string of the specification. -/
theorem strConcat_connSegments (config : DsnConfig) (dsn user password : String) :
    strConcat (connSegments config dsn user password)
      = "DSN=" ++ dsn ++ ";"
        ++ optSeg "DATABASE=" config.database
        ++ optSeg "HOST=" config.host
        ++ optSeg "SERVER=" config.server
        ++ optSeg "SERVICE=" config.service
        ++ optSeg "PROTOCOL=" config.protocol
        ++ credSeg "UID=" user config.user
        ++ credSeg "PWD=" password config.password := by
  simp only [connSegments, strConcat_append, strConcat_opt, strConcat_cred]
  simp [strConcat, String.append_empty, String.append_assoc]

/-- The length of a concatenation is the sum of the lengths. -/
theorem strConcat_length (l : List String) :
    (strConcat l).length = (l.map String.length).sum := by
  induction l with
  | nil => rfl
  | cons s t ih => simp [strConcat, String.length_append, ih]

/-- When the full connection string fits in the caller's buffer,
`build_connection_string` produces exactly it. -/
theorem build_fits_eq (config : DsnConfig) (dsn user password : String)
    (bufsize : Nat)
    (hfit : ("DSN=" ++ dsn ++ ";"
        ++ optSeg "DATABASE=" config.database
        ++ optSeg "HOST=" config.host
        ++ optSeg "SERVER=" config.server
        ++ optSeg "SERVICE=" config.service
        ++ optSeg "PROTOCOL=" config.protocol
        ++ credSeg "UID=" user config.user
        ++ credSeg "PWD=" password config.password).length < bufsize) :
    build_connection_string config dsn user password bufsize
      = some ("DSN=" ++ dsn ++ ";"
          ++ optSeg "DATABASE=" config.database
          ++ optSeg "HOST=" config.host
          ++ optSeg "SERVER=" config.server
          ++ optSeg "SERVICE=" config.service
          ++ optSeg "PROTOCOL=" config.protocol
          ++ credSeg "UID=" user config.user
          ++ credSeg "PWD=" password config.password) := by
  have hcat := strConcat_connSegments config dsn user password
  have hsum : ((connSegments config dsn user password).map String.length).sum
      = ("DSN=" ++ dsn ++ ";"
          ++ optSeg "DATABASE=" config.database
          ++ optSeg "HOST=" config.host
          ++ optSeg "SERVER=" config.server
          ++ optSeg "SERVICE=" config.service
          ++ optSeg "PROTOCOL=" config.protocol
          ++ credSeg "UID=" user config.user
          ++ credSeg "PWD=" password config.password).length := by
    rw [← strConcat_length, hcat]
  have hch := snprintfChain_fits bufsize (connSegments config dsn user password)
    "" 0 rfl (by omega)
  unfold build_connection_string
  rw [hch]
  show some ("" ++ strConcat (connSegments config dsn user password)) = _
  rw [String.empty_append, hcat]

/-- Claim C2 (corrected): the claim's universally quantified segment
equation fails on the program, whose snprintf chain truncates at the
caller's buffer: with the 2048-byte buffer `ifx::connect` passes, a
3000-character DSN cannot yield `DSN=<dsn>;`. -/
theorem build_connection_string_counterexample :
    build_connection_string zeroConfig dsnLong "" "" 2048
      ≠ some ("DSN=" ++ dsnLong ++ ";") := by
  intro h
  have hdlen : ("DSN=" ++ dsnLong ++ ";").length = 3005 := by
    rw [String.length_append, String.length_append]
    have h1 : ("DSN=" : String).length = 4 := rfl
    have h2 : (";" : String).length = 1 := rfl
    have h3 : dsnLong.length = 3000 := by
      show (List.replicate 3000 'a').length = 3000
      rw [List.length_replicate]
    omega
  unfold build_connection_string at h
  cases hf : (connSegments zeroConfig dsnLong "" "").foldl (snprintfStep 2048)
      (some ("", 0)) with
  | none => rw [hf] at h; cases h
  | some res =>
    rw [hf] at h
    have hres : res.1 = "DSN=" ++ dsnLong ++ ";" := by
      simpa using h
    have hbound := snprintfChain_bound 2048 (connSegments zeroConfig dsnLong "" "")
      "" 0 res (Nat.le_refl 0) (Nat.zero_le _) hf
    rw [hres, hdlen] at hbound
    omega

/-- Claim C2 (amended): whenever the full connection string fits in the
caller's `bufsize`-byte buffer (as it always does for configuration-file
sized inputs with the 2048-byte buffer `ifx::connect` passes), the output
is exactly `DSN=<dsn>;` followed, in this fixed order, by the
`DATABASE=`, `HOST=`, `SERVER=`, `SERVICE=`, `PROTOCOL=`, `UID=`, `PWD=`
segments, each of the first five appearing (as `KEY=value;`) exactly when
the corresponding configuration field is non-empty (second conjunct);
longer inputs are truncated at `bufsize - 1` bytes by the snprintf chain. -/
theorem build_connection_string_segments (config : DsnConfig)
    (dsn user password : String) (bufsize : Nat)
    (hfit : ("DSN=" ++ dsn ++ ";"
        ++ optSeg "DATABASE=" config.database
        ++ optSeg "HOST=" config.host
        ++ optSeg "SERVER=" config.server
        ++ optSeg "SERVICE=" config.service
        ++ optSeg "PROTOCOL=" config.protocol
        ++ credSeg "UID=" user config.user
        ++ credSeg "PWD=" password config.password).length < bufsize) :
    build_connection_string config dsn user password bufsize
      = some ("DSN=" ++ dsn ++ ";"
          ++ optSeg "DATABASE=" config.database
          ++ optSeg "HOST=" config.host
          ++ optSeg "SERVER=" config.server
          ++ optSeg "SERVICE=" config.service
          ++ optSeg "PROTOCOL=" config.protocol
          ++ credSeg "UID=" user config.user
          ++ credSeg "PWD=" password config.password)
  ∧ (∀ k v : String,
      (v ≠ "" ∧ optSeg k v = k ++ v ++ ";") ∨ (v = "" ∧ optSeg k v = "")) := by
  constructor
  · exact build_fits_eq config dsn user password bufsize hfit
  · intro k v
    by_cases h : v = ""
    · exact Or.inr ⟨h, by simp [optSeg, h]⟩
    · exact Or.inl ⟨h, by simp [optSeg, h]⟩

/-- Concrete instantiation of `build_connection_string_segments` at a
configuration that fits comfortably in the 2048-byte buffer. -/
theorem build_connection_string_segments_witness :
    build_connection_string cfgBob "mydsn" "alice" "" 2048
      = some ("DSN=" ++ "mydsn" ++ ";"
          ++ optSeg "DATABASE=" cfgBob.database
          ++ optSeg "HOST=" cfgBob.host
          ++ optSeg "SERVER=" cfgBob.server
          ++ optSeg "SERVICE=" cfgBob.service
          ++ optSeg "PROTOCOL=" cfgBob.protocol
          ++ credSeg "UID=" "alice" cfgBob.user
          ++ credSeg "PWD=" "" cfgBob.password) :=
  (build_connection_string_segments cfgBob "mydsn" "alice" "" 2048 (by decide)).1

/-- Claim C3 (corrected): the claimed UID precedence fails on the
program once the buffer fills: with a 2040-character DSN and the
non-empty explicit user `"alice"`, the `UID=alice;` segment is truncated
away by the 2048-byte buffer, so the output is not the DSN prefix
followed by the UID segment. -/
theorem connect_uid_pwd_counterexample :
    build_connection_string zeroConfig dsn2040 "alice" "" 2048
      ≠ some ("DSN=" ++ dsn2040 ++ ";"
          ++ optSeg "DATABASE=" zeroConfig.database
          ++ optSeg "HOST=" zeroConfig.host
          ++ optSeg "SERVER=" zeroConfig.server
          ++ optSeg "SERVICE=" zeroConfig.service
          ++ optSeg "PROTOCOL=" zeroConfig.protocol
          ++ credSeg "UID=" "alice" zeroConfig.user
          ++ credSeg "PWD=" "" zeroConfig.password) := by
  intro h
  have hexp : ("DSN=" ++ dsn2040 ++ ";"
      ++ optSeg "DATABASE=" zeroConfig.database
      ++ optSeg "HOST=" zeroConfig.host
      ++ optSeg "SERVER=" zeroConfig.server
      ++ optSeg "SERVICE=" zeroConfig.service
      ++ optSeg "PROTOCOL=" zeroConfig.protocol
      ++ credSeg "UID=" "alice" zeroConfig.user
      ++ credSeg "PWD=" "" zeroConfig.password).length = 2055 := by
    have h3 : dsn2040.length = 2040 := by
      show (List.replicate 2040 'a').length = 2040
      rw [List.length_replicate]
    have ho : ∀ k : String, optSeg k "" = "" := fun k => by simp [optSeg]
    have hc1 : credSeg "UID=" "alice" "" = "UID=" ++ "alice" ++ ";" := by
      simp [credSeg]
    have hc2 : credSeg "PWD=" "" "" = "" := by simp [credSeg]
    show ("DSN=" ++ dsn2040 ++ ";" ++ optSeg "DATABASE=" ""
        ++ optSeg "HOST=" "" ++ optSeg "SERVER=" "" ++ optSeg "SERVICE=" ""
        ++ optSeg "PROTOCOL=" "" ++ credSeg "UID=" "alice" ""
        ++ credSeg "PWD=" "" "").length = 2055
    rw [ho, ho, ho, ho, ho, hc1, hc2]
    simp only [String.length_append]
    have l1 : ("DSN=" : String).length = 4 := rfl
    have l2 : (";" : String).length = 1 := rfl
    have l3 : ("" : String).length = 0 := rfl
    have l4 : ("UID=" : String).length = 4 := rfl
    have l5 : ("alice" : String).length = 5 := rfl
    omega
  unfold build_connection_string at h
  cases hf : (connSegments zeroConfig dsn2040 "alice" "").foldl (snprintfStep 2048)
      (some ("", 0)) with
  | none => rw [hf] at h; cases h
  | some res =>
    rw [hf] at h
    have hres : res.1.length = 2055 := by
      have := congrArg String.length (show res.1 = _ from by simpa using h)
      rw [this, hexp]
    have hbound := snprintfChain_bound 2048 (connSegments zeroConfig dsn2040 "alice" "")
      "" 0 res (Nat.le_refl 0) (Nat.zero_le _) hf
    omega

/-- Claim C3 (amended): in the connection string built for
`ifx::connect`, whenever the full string fits in the 2048-byte buffer,
the UID segment comes from the explicit user argument when non-empty,
else from the odbc.ini user field when non-empty, and is omitted when
both are empty; PWD follows the same precedence (first six conjuncts and
the fits-conditioned equation); for longer inputs the snprintf chain
truncates and the segments may be cut short or absent.  `IfxConnect_Cmd`
builds the string with exactly the argument-supplied user/password
(empty when the optional arguments are absent) over the configuration
resolved from odbc.ini, into its 2048-byte buffer (last three
conjuncts). -/
theorem connect_uid_pwd_precedence (e : OdbcEnv)
    (fs : String → Option (List (List Char))) (o : ConnectOracle)
    (st : InterpState) (config : DsnConfig) (c0 dsn user password : String)
    (bufsize : Nat) :
    (user ≠ "" → credSeg "UID=" user config.user = "UID=" ++ user ++ ";")
  ∧ (user = "" → config.user ≠ "" →
       credSeg "UID=" user config.user = "UID=" ++ config.user ++ ";")
  ∧ (user = "" → config.user = "" → credSeg "UID=" user config.user = "")
  ∧ (password ≠ "" →
       credSeg "PWD=" password config.password = "PWD=" ++ password ++ ";")
  ∧ (password = "" → config.password ≠ "" →
       credSeg "PWD=" password config.password = "PWD=" ++ config.password ++ ";")
  ∧ (password = "" → config.password = "" →
       credSeg "PWD=" password config.password = "")
  ∧ (("DSN=" ++ dsn ++ ";"
        ++ optSeg "DATABASE=" config.database
        ++ optSeg "HOST=" config.host
        ++ optSeg "SERVER=" config.server
        ++ optSeg "SERVICE=" config.service
        ++ optSeg "PROTOCOL=" config.protocol
        ++ credSeg "UID=" user config.user
        ++ credSeg "PWD=" password config.password).length < bufsize →
      build_connection_string config dsn user password bufsize
        = some ("DSN=" ++ dsn ++ ";"
            ++ optSeg "DATABASE=" config.database
            ++ optSeg "HOST=" config.host
            ++ optSeg "SERVER=" config.server
            ++ optSeg "SERVICE=" config.service
            ++ optSeg "PROTOCOL=" config.protocol
            ++ credSeg "UID=" user config.user
            ++ credSeg "PWD=" password config.password))
  ∧ (IfxConnect_Cmd e fs o st [c0, dsn]).connStr
      = build_connection_string (effectiveConfig e fs dsn) dsn "" "" 2048
  ∧ (IfxConnect_Cmd e fs o st [c0, dsn, user]).connStr
      = build_connection_string (effectiveConfig e fs dsn) dsn user "" 2048
  ∧ (IfxConnect_Cmd e fs o st [c0, dsn, user, password]).connStr
      = build_connection_string (effectiveConfig e fs dsn) dsn user password 2048 := by
  refine ⟨fun h => by simp [credSeg, h],
          fun h h2 => by simp [credSeg, h, h2],
          fun h h2 => by simp [credSeg, h, h2],
          fun h => by simp [credSeg, h],
          fun h h2 => by simp [credSeg, h, h2],
          fun h h2 => by simp [credSeg, h, h2],
          fun hfit => build_fits_eq config dsn user password bufsize hfit,
          ?_, ?_, ?_⟩
  · have h1 : ([c0, dsn] : List String).getD 1 "" = dsn := rfl
    have h2 : ([c0, dsn] : List String).getD 2 "" = "" := rfl
    have h3 : ([c0, dsn] : List String).getD 3 "" = "" := rfl
    simp only [IfxConnect_Cmd]
    norm_num
    split_ifs <;> simp only [h1, h2, h3]
  · have h1 : ([c0, dsn, user] : List String).getD 1 "" = dsn := rfl
    have h2 : ([c0, dsn, user] : List String).getD 2 "" = user := rfl
    have h3 : ([c0, dsn, user] : List String).getD 3 "" = "" := rfl
    simp only [IfxConnect_Cmd]
    norm_num
    split_ifs <;> simp only [h1, h2, h3]
  · have h1 : ([c0, dsn, user, password] : List String).getD 1 "" = dsn := rfl
    have h2 : ([c0, dsn, user, password] : List String).getD 2 "" = user := rfl
    have h3 : ([c0, dsn, user, password] : List String).getD 3 "" = password := rfl
    simp only [IfxConnect_Cmd]
    norm_num
    split_ifs <;> simp only [h1, h2, h3]

/-- Concrete instantiation of `connect_uid_pwd_precedence`: the three UID
precedence cases, the three PWD precedence cases, and the
fits-conditioned build equation at explicit strings. -/
theorem connect_uid_pwd_precedence_witness :
    credSeg "UID=" "alice" "bob" = "UID=" ++ "alice" ++ ";"
  ∧ credSeg "UID=" "" "bob" = "UID=" ++ "bob" ++ ";"
  ∧ credSeg "UID=" "" "" = ""
  ∧ credSeg "PWD=" "s3cret" "pw2" = "PWD=" ++ "s3cret" ++ ";"
  ∧ credSeg "PWD=" "" "pw2" = "PWD=" ++ "pw2" ++ ";"
  ∧ credSeg "PWD=" "" "" = ""
  ∧ build_connection_string cfgBob "d" "" "" 2048
      = some ("DSN=" ++ "d" ++ ";"
          ++ optSeg "DATABASE=" cfgBob.database
          ++ optSeg "HOST=" cfgBob.host
          ++ optSeg "SERVER=" cfgBob.server
          ++ optSeg "SERVICE=" cfgBob.service
          ++ optSeg "PROTOCOL=" cfgBob.protocol
          ++ credSeg "UID=" "" cfgBob.user
          ++ credSeg "PWD=" "" cfgBob.password) := by
  refine ⟨?_, ?_, ?_, ?_, ?_, ?_, ?_⟩
  · exact (connect_uid_pwd_precedence eW fsNone oConnOk stEmpty cfgBob
      "c" "d" "alice" "x" 2048).1 (by decide)
  · exact (connect_uid_pwd_precedence eW fsNone oConnOk stEmpty cfgBob
      "c" "d" "" "x" 2048).2.1 rfl (by decide)
  · exact (connect_uid_pwd_precedence eW fsNone oConnOk stEmpty zeroConfig
      "c" "d" "" "x" 2048).2.2.1 rfl rfl
  · exact (connect_uid_pwd_precedence eW fsNone oConnOk stEmpty cfgBob
      "c" "d" "u" "s3cret" 2048).2.2.2.1 (by decide)
  · exact (connect_uid_pwd_precedence eW fsNone oConnOk stEmpty cfgBob
      "c" "d" "u" "" 2048).2.2.2.2.1 rfl (by decide)
  · exact (connect_uid_pwd_precedence eW fsNone oConnOk stEmpty zeroConfig
      "c" "d" "u" "" 2048).2.2.2.2.2.1 rfl rfl
  · exact (connect_uid_pwd_precedence eW fsNone oConnOk stEmpty cfgBob
      "c" "d" "" "" 2048).2.2.2.2.2.2.1 (by decide)

/-- Claim C4: with a registered, connected connection handle (and the
statement-handle allocation succeeding, which is the only way the C code
reaches `SQLExecDirect`), `ifx::execute` passes the SQL argument string
unchanged to `SQLExecDirect` (first conjunct); when that call returns
`SQL_SUCCESS`, `SQL_SUCCESS_WITH_INFO` or `SQL_NO_DATA` it returns TCL_OK
with a freshly created result handle registered in the interpreter
(second conjunct); for every other return code it frees the statement
handle, registers no result handle (the interpreter state is unchanged),
and returns TCL_ERROR with a diagnostic message (third conjunct). -/
theorem execute_passthrough (o : ExecOracle) (st : InterpState)
    (c0 cn sql : String) (rest : List String) (conn : IfxConnection)
    (hc : getAssoc st cn = some (.conn conn))
    (hcon : conn.connected = true)
    (halloc : o.allocRet = SQL_SUCCESS) :
    (IfxExecute_Cmd o st (c0 :: cn :: sql :: rest)).execCalls = [sql]
  ∧ ((o.execRet = SQL_SUCCESS ∨ o.execRet = SQL_SUCCESS_WITH_INFO ∨
        o.execRet = SQL_NO_DATA) →
      IfxExecute_Cmd o st (c0 :: cn :: sql :: rest) =
        ⟨.ok, resName (st.result_counter + 1),
         { assoc := setA st.assoc (resName (st.result_counter + 1))
             (.result ⟨o.hstmt, o.numCols, (List.range o.numCols).map o.colName⟩),
           conn_counter := st.conn_counter,
           result_counter := st.result_counter + 1 },
         [sql], false⟩)
  ∧ (o.execRet ≠ SQL_SUCCESS → o.execRet ≠ SQL_SUCCESS_WITH_INFO →
       o.execRet ≠ SQL_NO_DATA →
      IfxExecute_Cmd o st (c0 :: cn :: sql :: rest) =
        ⟨.error, execDiagMsg o, st, [sql], true⟩) := by
  have hlen : ¬ (c0 :: cn :: sql :: rest).length < 3 := by
    simp [Nat.succ_le_succ]
  have hget1 : (c0 :: cn :: sql :: rest).getD 1 "" = cn := rfl
  have hget2 : (c0 :: cn :: sql :: rest).getD 2 "" = sql := rfl
  have hred : IfxExecute_Cmd o st (c0 :: cn :: sql :: rest) =
      (if o.execRet ≠ SQL_SUCCESS ∧ o.execRet ≠ SQL_SUCCESS_WITH_INFO
          ∧ o.execRet ≠ SQL_NO_DATA
       then ⟨.error, execDiagMsg o, st, [sql], true⟩
       else ⟨.ok, resName (st.result_counter + 1),
             { assoc := setA st.assoc (resName (st.result_counter + 1))
                 (.result ⟨o.hstmt, o.numCols, (List.range o.numCols).map o.colName⟩),
               conn_counter := st.conn_counter,
               result_counter := st.result_counter + 1 },
             [sql], false⟩) := by
    simp only [IfxExecute_Cmd, if_neg hlen, hget1, hget2, hc, hcon, halloc]
    simp
  refine ⟨?_, ?_, ?_⟩
  · rw [hred]
    split_ifs <;> rfl
  · intro h
    have hnot : ¬ (o.execRet ≠ SQL_SUCCESS ∧ o.execRet ≠ SQL_SUCCESS_WITH_INFO
        ∧ o.execRet ≠ SQL_NO_DATA) := by
      rcases h with h | h | h <;> simp [h]
    rw [hred, if_neg hnot]
  · intro h1 h2 h3
    rw [hred, if_pos ⟨h1, h2, h3⟩]

/-- Concrete instantiation of `execute_passthrough`: a successful
`SQLExecDirect` yields a fresh registered result handle; a failing one
reports the diagnostic, frees the statement and leaves the interpreter
unchanged. -/
theorem execute_passthrough_witness :
    (IfxExecute_Cmd oExecOk stConn ["e", "c", "SELECT 1"]).execCalls = ["SELECT 1"]
  ∧ IfxExecute_Cmd oExecOk stConn ["e", "c", "SELECT 1"] =
      ⟨.ok, resName 8,
       { assoc := setA stConn.assoc (resName 8)
           (.result ⟨9, 2, (List.range 2).map oExecOk.colName⟩),
         conn_counter := 5, result_counter := 8 },
       ["SELECT 1"], false⟩
  ∧ IfxExecute_Cmd oExecFail stConn ["e", "c", "BAD SQL"] =
      ⟨.error, execDiagMsg oExecFail, stConn, ["BAD SQL"], true⟩ := by
  refine ⟨?_, ?_, ?_⟩
  · exact (execute_passthrough oExecOk stConn "e" "c" "SELECT 1" [] connW
      (by decide) rfl rfl).1
  · exact (execute_passthrough oExecOk stConn "e" "c" "SELECT 1" [] connW
      (by decide) rfl rfl).2.1 (Or.inl rfl)
  · exact (execute_passthrough oExecFail stConn "e" "c" "BAD SQL" [] connW
      (by decide) rfl rfl).2.2 (by decide) (by decide) (by decide)

/-- `Tcl_DictObjPut` with a key not yet in the dict appends the pair. -/
theorem dictPut_not_mem (d : List (String × String)) (k v : String)
    (h : k ∉ d.map Prod.fst) : dictPut d k v = d ++ [(k, v)] := by
  have hany : d.any (fun p => p.1 == k) = false := by
    rw [List.any_eq_false]
    intro p hp
    simp only [beq_iff_eq]
    intro he
    exact h (he ▸ List.mem_map_of_mem Prod.fst hp)
  simp [dictPut, hany]

/-- The column loop of `IfxFetch_Cmd`, when every `SQLGetData` succeeds
and the names are pairwise distinct, produces exactly the column-order
list of (name, value) pairs. -/
theorem foldlDict_eq_map (o : FetchOracle) (names : Nat → String) :
    ∀ n : Nat, (∀ i, i < n → o.getRet i = SQL_SUCCESS) →
      (∀ i j, i < n → j < n → names i = names j → i = j) →
      (List.range n).foldl
        (fun d i =>
          if o.getRet i = SQL_SUCCESS then
            dictPut d (names i) (if o.isNull i then "" else o.colVal i)
          else d) []
      = (List.range n).map
          (fun i => (names i, if o.isNull i then "" else o.colVal i)) := by
  intro n
  induction n with
  | zero => intro _ _; rfl
  | succ m ih =>
    intro hget hinj
    have hm := ih (fun i hi => hget i (Nat.lt_succ_of_lt hi))
      (fun i j hi hj => hinj i j (Nat.lt_succ_of_lt hi) (Nat.lt_succ_of_lt hj))
    rw [List.range_succ, List.foldl_append, List.map_append, hm]
    simp only [List.foldl_cons, List.foldl_nil, List.map_cons, List.map_nil]
    rw [if_pos (hget m (Nat.lt_succ_self m))]
    refine dictPut_not_mem _ _ _ ?_
    intro hmem
    rw [List.map_map] at hmem
    obtain ⟨i, hi, hni⟩ := List.mem_map.mp hmem
    have hilt : i < m := List.mem_range.mp hi
    have : i = m := hinj i m (Nat.lt_succ_of_lt hilt) (Nat.lt_succ_self m) hni
    omega

/-- Claim C5: given a registered result handle (with coherent column
metadata: as many pairwise-distinct column names as `num_cols`, and every
per-column `SQLGetData` conversion succeeding), `ifx::fetch` returns
TCL_OK with a dict mapping each column's name, in column order, to the
column's value converted to a string, a SQL NULL column mapping to the
empty value (second conjunct); when `SQLFetch` reports `SQL_NO_DATA` it
returns TCL_OK with the empty string (first conjunct); and when
`SQLFetch` fails otherwise it returns TCL_ERROR (third conjunct). -/
theorem fetch_rows (o : FetchOracle) (st : InterpState) (c0 name : String)
    (r : IfxResultSet)
    (hr : getAssoc st name = some (.result r))
    (hlen : r.col_names.length = r.num_cols)
    (hnd : r.col_names.Nodup)
    (hget : ∀ i, i < r.num_cols → o.getRet i = SQL_SUCCESS) :
    (o.fetchRet = SQL_NO_DATA → IfxFetch_Cmd o st [c0, name] = (.ok, .str ""))
  ∧ ((o.fetchRet = SQL_SUCCESS ∨ o.fetchRet = SQL_SUCCESS_WITH_INFO) →
      IfxFetch_Cmd o st [c0, name] =
        (.ok, .dict ((List.range r.num_cols).map fun i =>
          (r.col_names.getD i "", if o.isNull i then "" else o.colVal i))))
  ∧ (o.fetchRet ≠ SQL_NO_DATA → o.fetchRet ≠ SQL_SUCCESS →
       o.fetchRet ≠ SQL_SUCCESS_WITH_INFO →
      (IfxFetch_Cmd o st [c0, name]).1 = .error) := by
  have hlen2 : ¬ ([c0, name].length ≠ 2) := by simp
  have hget1 : ([c0, name]).getD 1 "" = name := rfl
  have hinj : ∀ i j, i < r.num_cols → j < r.num_cols →
      r.col_names.getD i "" = r.col_names.getD j "" → i = j := by
    intro i j hi hj hname
    have hi' : i < r.col_names.length := by omega
    have hj' : j < r.col_names.length := by omega
    rw [List.getD_eq_getElem _ _ hi', List.getD_eq_getElem _ _ hj'] at hname
    have hinj' := List.nodup_iff_injective_get.mp hnd
    have := @hinj' ⟨i, hi'⟩ ⟨j, hj'⟩ (by simpa using hname)
    simpa using congrArg Fin.val this
  refine ⟨?_, ?_, ?_⟩
  · intro h
    simp only [IfxFetch_Cmd, if_neg hlen2, hget1, hr, h]
    simp
  · intro h
    have hno : ¬ o.fetchRet = SQL_NO_DATA := by
      rcases h with h | h <;> rw [h] <;> decide
    have hok : ¬ (o.fetchRet ≠ SQL_SUCCESS ∧ o.fetchRet ≠ SQL_SUCCESS_WITH_INFO) := by
      rcases h with h | h <;> simp [h]
    simp only [IfxFetch_Cmd, if_neg hlen2, hget1, hr, if_neg hno, if_neg hok]
    rw [show fetchCols o r = (List.range r.num_cols).map
        (fun i => (r.col_names.getD i "", if o.isNull i then "" else o.colVal i))
      from foldlDict_eq_map o (fun i => r.col_names.getD i "") r.num_cols hget hinj]
  · intro h1 h2 h3
    simp only [IfxFetch_Cmd, if_neg hlen2, hget1, hr, if_neg h1]
    rw [if_pos ⟨h2, h3⟩]

/-- Concrete instantiation of `fetch_rows`: a fetched row becomes the
column-ordered dict (with a NULL column mapped to the empty value), an
exhausted result set yields TCL_OK with the empty string, and a failing
`SQLFetch` yields TCL_ERROR. -/
theorem fetch_rows_witness :
    IfxFetch_Cmd oFetchOk stRes ["f", "r"] =
      (.ok, .dict ((List.range 2).map fun i =>
        (resW.col_names.getD i "", if oFetchOk.isNull i then "" else oFetchOk.colVal i)))
  ∧ IfxFetch_Cmd oFetchNoData stRes ["f", "r"] = (.ok, .str "")
  ∧ (IfxFetch_Cmd oFetchBad stRes ["f", "r"]).1 = .error := by
  refine ⟨?_, ?_, ?_⟩
  · exact (fetch_rows oFetchOk stRes "f" "r" resW (by decide) rfl (by decide)
      (fun i _ => rfl)).2.1 (Or.inl rfl)
  · exact (fetch_rows oFetchNoData stRes "f" "r" resW (by decide) rfl (by decide)
      (fun i _ => rfl)).1 rfl
  · exact (fetch_rows oFetchBad stRes "f" "r" resW (by decide) rfl (by decide)
      (fun i _ => rfl)).2.2 (by decide) (by decide) (by decide)

/-- Claim C6: package initialisation registers `::ifx::connect`,
`::ifx::execute`, `::ifx::fetch` and `::ifx::disconnect` as interpreter
commands in the created `::ifx` namespace, and returns TCL_OK only when
namespace creation and package provision both succeeded. -/
theorem ifxcli_init_registers (o : InitOracle) :
    (Ifxcli_Init o).code = .ok →
      "::ifx::connect" ∈ (Ifxcli_Init o).registered
    ∧ "::ifx::execute" ∈ (Ifxcli_Init o).registered
    ∧ "::ifx::fetch" ∈ (Ifxcli_Init o).registered
    ∧ "::ifx::disconnect" ∈ (Ifxcli_Init o).registered
    ∧ (Ifxcli_Init o).nsCreated = true
    ∧ (Ifxcli_Init o).pkgProvided = true
    ∧ o.nsOk = true
    ∧ o.pkgOk = true := by
  intro h
  obtain ⟨s, n, p⟩ := o
  cases s <;> cases n <;> cases p <;>
    first
      | decide
      | (exfalso; simp [Ifxcli_Init] at h)

/-- Concrete instantiation of `ifxcli_init_registers` at a fully
successful initialisation. -/
theorem ifxcli_init_registers_witness :
    "::ifx::connect" ∈ (Ifxcli_Init oInitOk).registered
  ∧ "::ifx::execute" ∈ (Ifxcli_Init oInitOk).registered
  ∧ "::ifx::fetch" ∈ (Ifxcli_Init oInitOk).registered
  ∧ "::ifx::disconnect" ∈ (Ifxcli_Init oInitOk).registered
  ∧ (Ifxcli_Init oInitOk).nsCreated = true
  ∧ (Ifxcli_Init oInitOk).pkgProvided = true
  ∧ oInitOk.nsOk = true
  ∧ oInitOk.pkgOk = true :=
  ifxcli_init_registers oInitOk rfl

/-- Claim C7: `ifx::connect` fails exactly on wrong argument count,
environment-handle allocation failure, connection-handle allocation
failure, or `SQLDriverConnect` returning neither `SQL_SUCCESS` nor
`SQL_SUCCESS_WITH_INFO` (first conjunct); and on every failure it returns
TCL_ERROR having freed exactly the ODBC handles and the connection
structure allocated up to that point, leaving the interpreter's
associated-data state unchanged (second conjunct). -/
theorem connect_error_cleanup (e : OdbcEnv)
    (fs : String → Option (List (List Char))) (o : ConnectOracle)
    (st : InterpState) (objv : List String) :
    ((IfxConnect_Cmd e fs o st objv).code = .error ↔
       (objv.length < 2 ∨ 4 < objv.length ∨ o.envAllocRet ≠ SQL_SUCCESS
        ∨ o.dbcAllocRet ≠ SQL_SUCCESS
        ∨ (o.connRet ≠ SQL_SUCCESS ∧ o.connRet ≠ SQL_SUCCESS_WITH_INFO)))
  ∧ ((IfxConnect_Cmd e fs o st objv).code = .error →
       (IfxConnect_Cmd e fs o st objv).state = st
     ∧ (IfxConnect_Cmd e fs o st objv).envFreed
         = (IfxConnect_Cmd e fs o st objv).envAllocated
     ∧ (IfxConnect_Cmd e fs o st objv).dbcFreed
         = (IfxConnect_Cmd e fs o st objv).dbcAllocated
     ∧ (IfxConnect_Cmd e fs o st objv).structFreed
         = (IfxConnect_Cmd e fs o st objv).structAllocated) := by
  by_cases h1 : objv.length < 2 ∨ 4 < objv.length
  · refine ⟨⟨fun _ => by tauto, fun _ => by simp [IfxConnect_Cmd, h1]⟩, fun _ => ?_⟩
    refine ⟨?_, ?_, ?_, ?_⟩ <;> simp [IfxConnect_Cmd, h1]
  · by_cases h2 : o.envAllocRet = SQL_SUCCESS
    · by_cases h3 : o.dbcAllocRet = SQL_SUCCESS
      · by_cases h4 : o.connRet = SQL_SUCCESS
        · refine ⟨⟨fun hcode => ?_, fun hdisj => ?_⟩, fun hcode => ?_⟩
          · simp [IfxConnect_Cmd, h1, h2, h3, h4] at hcode
          · exfalso; rcases hdisj with h | h | h | h | ⟨h, _⟩ <;> tauto
          · exfalso; simp [IfxConnect_Cmd, h1, h2, h3, h4] at hcode
        · by_cases h5 : o.connRet = SQL_SUCCESS_WITH_INFO
          · refine ⟨⟨fun hcode => ?_, fun hdisj => ?_⟩, fun hcode => ?_⟩
            · simp [IfxConnect_Cmd, h1, h2, h3, h5] at hcode
            · exfalso; rcases hdisj with h | h | h | h | ⟨_, h⟩ <;> tauto
            · exfalso; simp [IfxConnect_Cmd, h1, h2, h3, h5] at hcode
          · refine ⟨⟨fun _ => by tauto, fun _ => ?_⟩, fun _ => ?_⟩
            · simp [IfxConnect_Cmd, h1, h2, h3, h4, h5]
            · refine ⟨?_, ?_, ?_, ?_⟩ <;> simp [IfxConnect_Cmd, h1, h2, h3, h4, h5]
      · refine ⟨⟨fun _ => by tauto, fun _ => ?_⟩, fun _ => ?_⟩
        · simp [IfxConnect_Cmd, h1, h2, h3]
        · refine ⟨?_, ?_, ?_, ?_⟩ <;> simp [IfxConnect_Cmd, h1, h2, h3]
    · refine ⟨⟨fun _ => by tauto, fun _ => ?_⟩, fun _ => ?_⟩
      · simp [IfxConnect_Cmd, h1, h2]
      · refine ⟨?_, ?_, ?_, ?_⟩ <;> simp [IfxConnect_Cmd, h1, h2]

/-- Concrete instantiation of `connect_error_cleanup`: a failing
`SQLDriverConnect` makes `ifx::connect` fail with everything it
allocated freed again and the interpreter state unchanged. -/
theorem connect_error_cleanup_witness :
    (IfxConnect_Cmd eW fsNone oConnFail stEmpty ["ifx::connect", "mydsn"]).code = .error
  ∧ (IfxConnect_Cmd eW fsNone oConnFail stEmpty ["ifx::connect", "mydsn"]).state = stEmpty
  ∧ (IfxConnect_Cmd eW fsNone oConnFail stEmpty ["ifx::connect", "mydsn"]).envFreed
      = (IfxConnect_Cmd eW fsNone oConnFail stEmpty ["ifx::connect", "mydsn"]).envAllocated
  ∧ (IfxConnect_Cmd eW fsNone oConnFail stEmpty ["ifx::connect", "mydsn"]).dbcFreed
      = (IfxConnect_Cmd eW fsNone oConnFail stEmpty ["ifx::connect", "mydsn"]).dbcAllocated
  ∧ (IfxConnect_Cmd eW fsNone oConnFail stEmpty ["ifx::connect", "mydsn"]).structFreed
      = (IfxConnect_Cmd eW fsNone oConnFail stEmpty ["ifx::connect", "mydsn"]).structAllocated := by
  have h := connect_error_cleanup eW fsNone oConnFail stEmpty ["ifx::connect", "mydsn"]
  have hcode : (IfxConnect_Cmd eW fsNone oConnFail stEmpty
      ["ifx::connect", "mydsn"]).code = .error :=
    h.1.mpr (Or.inr (Or.inr (Or.inr (Or.inr ⟨by decide, by decide⟩))))
  obtain ⟨hs, he, hd, hst⟩ := h.2 hcode
  exact ⟨hcode, hs, he, hd, hst⟩

/-- Distinct decimal digits render to distinct characters. -/
theorem digitChar_cancel : ∀ a b : Fin 10,
    Char.ofNat (48 + a.val) = Char.ofNat (48 + b.val) → a = b := by decide

/-- Rendering a digit list to characters is injective. -/
theorem mapDigitChars_inj : ∀ l1 l2 : List Nat,
    (∀ x ∈ l1, x < 10) → (∀ x ∈ l2, x < 10) →
    l1.map (fun d => Char.ofNat (48 + d)) = l2.map (fun d => Char.ofNat (48 + d)) →
    l1 = l2 := by
  intro l1
  induction l1 with
  | nil =>
    intro l2 _ _ h
    cases l2 with
    | nil => rfl
    | cons b t2 => simp at h
  | cons a t ih =>
    intro l2 h1 h2 h
    cases l2 with
    | nil => simp at h
    | cons b t2 =>
      simp only [List.map_cons, List.cons.injEq] at h
      have ha : a < 10 := h1 a (List.mem_cons_self a t)
      have hb : b < 10 := h2 b (List.mem_cons_self b t2)
      have hab : a = b := by
        have := digitChar_cancel ⟨a, ha⟩ ⟨b, hb⟩ h.1
        exact congrArg Fin.val this
      have ht : t = t2 := ih t2
        (fun x hx => h1 x (List.mem_cons_of_mem a hx))
        (fun x hx => h2 x (List.mem_cons_of_mem b hx)) h.2
      rw [hab, ht]

/-- The decimal rendering `%d` produces is injective on naturals. -/
theorem decStr_inj {m n : Nat} (h : decStr m = decStr n) : m = n := by
  have hdata := congrArg String.data h
  have hdig : ∀ k : Nat, ∀ x ∈ (Nat.digits 10 k).reverse, x < 10 := by
    intro k x hx
    exact Nat.digits_lt_base (by norm_num) (List.mem_reverse.mp hx)
  by_cases hm : m = 0
  · by_cases hn : n = 0
    · rw [hm, hn]
    · exfalso
      rw [decStr, decStr, if_pos hm, if_neg hn] at h
      have hdata' := congrArg String.data h
      have h0 : (List.map (fun d => Char.ofNat (48 + d)) [0] : List Char) = ['0'] := by
        decide
      have : ([0] : List Nat) = (Nat.digits 10 n).reverse := by
        refine mapDigitChars_inj [0] (Nat.digits 10 n).reverse
          (by intro x hx; simp at hx; omega) (hdig n) ?_
        rw [h0]
        exact hdata'
      have hd : Nat.digits 10 n = [0] := by
        have := congrArg List.reverse this
        simpa using this.symm
      have h00 : Nat.ofDigits 10 ([0] : List Nat) = 0 := by
        simp [Nat.ofDigits]
      have := Nat.ofDigits_digits 10 n
      rw [hd, h00] at this
      exact hn this.symm
  · by_cases hn : n = 0
    · exfalso
      rw [decStr, decStr, if_neg hm, if_pos hn] at h
      have hdata' := congrArg String.data h
      have h0 : (List.map (fun d => Char.ofNat (48 + d)) [0] : List Char) = ['0'] := by
        decide
      have : (Nat.digits 10 m).reverse = ([0] : List Nat) := by
        refine mapDigitChars_inj (Nat.digits 10 m).reverse [0]
          (hdig m) (by intro x hx; simp at hx; omega) ?_
        rw [h0]
        exact hdata'
      have hd : Nat.digits 10 m = [0] := by
        have := congrArg List.reverse this
        simpa using this
      have h00 : Nat.ofDigits 10 ([0] : List Nat) = 0 := by
        simp [Nat.ofDigits]
      have := Nat.ofDigits_digits 10 m
      rw [hd, h00] at this
      exact hm this.symm
    · rw [decStr, decStr, if_neg hm, if_neg hn] at h
      have hdata2 : (Nat.digits 10 m).reverse.map (fun d => Char.ofNat (48 + d))
          = (Nat.digits 10 n).reverse.map (fun d => Char.ofNat (48 + d)) :=
        congrArg String.data h
      have hrev : (Nat.digits 10 m).reverse = (Nat.digits 10 n).reverse :=
        mapDigitChars_inj _ _ (hdig m) (hdig n) hdata2
      have hdigs : Nat.digits 10 m = Nat.digits 10 n := by
        have := congrArg List.reverse hrev
        simpa using this
      calc m = Nat.ofDigits 10 (Nat.digits 10 m) := (Nat.ofDigits_digits 10 m).symm
      _ = Nat.ofDigits 10 (Nat.digits 10 n) := by rw [hdigs]
      _ = n := Nat.ofDigits_digits 10 n

/-- String concatenation acts on the underlying character lists. -/
theorem strData_append (a b : String) : (a ++ b).data = a.data ++ b.data := rfl

/-- Connection handle names are injective in the counter. -/
theorem connName_inj {m n : Nat} (h : connName m = connName n) : m = n := by
  have h2 : "ifxconn".data ++ (decStr m).data = "ifxconn".data ++ (decStr n).data := by
    have := congrArg String.data h
    rw [connName, connName, strData_append, strData_append] at this
    exact this
  have h3 : (decStr m).data = (decStr n).data := by
    exact List.append_cancel_left h2
  exact decStr_inj (by
    cases hm : decStr m
    cases hn : decStr n
    rw [hm, hn] at h3
    simp at h3
    rw [h3])

/-- Result handle names are injective in the counter. -/
theorem resName_inj {m n : Nat} (h : resName m = resName n) : m = n := by
  have h2 : "ifxresult".data ++ (decStr m).data
      = "ifxresult".data ++ (decStr n).data := by
    have := congrArg String.data h
    rw [resName, resName, strData_append, strData_append] at this
    exact this
  have h3 : (decStr m).data = (decStr n).data := by
    exact List.append_cancel_left h2
  exact decStr_inj (by
    cases hm : decStr m
    cases hn : decStr n
    rw [hm, hn] at h3
    simp at h3
    rw [h3])

/-- A connection name is never a result name. -/
theorem connName_ne_resName (m n : Nat) : connName m ≠ resName n := by
  intro h
  have h2 := congrArg String.data h
  rw [connName, resName, strData_append, strData_append] at h2
  have hc : "ifxconn".data = ['i', 'f', 'x', 'c', 'o', 'n', 'n'] := rfl
  have hr : "ifxresult".data = ['i', 'f', 'x', 'r', 'e', 's', 'u', 'l', 't'] := rfl
  rw [hc, hr] at h2
  simp at h2

/-- Lookup after `Tcl_SetAssocData`: the new key maps to the new value,
every other key is unchanged. -/
theorem getA_setA (l : List (String × AssocVal)) (k k' : String) (v : AssocVal) :
    getA (setA l k v) k' = if k = k' then some v else getA l k' := by
  induction l with
  | nil =>
    by_cases h : k = k' <;> simp [setA, getA, h]
  | cons p t ih =>
    obtain ⟨a, b⟩ := p
    by_cases h1 : a = k
    · subst h1
      by_cases h2 : a = k' <;> simp [setA, getA, h2]
    · by_cases h2 : a = k'
      · subst h2
        have hk : ¬ k = a := fun hh => h1 hh.symm
        simp [setA, getA, h1, hk]
      · simp [setA, getA, h1, h2, ih]

/-- A key absent from the list looks up to `none`. -/
theorem getA_eq_none_of_not_mem (l : List (String × AssocVal)) (k : String)
    (h : k ∉ l.map Prod.fst) : getA l k = none := by
  induction l with
  | nil => rfl
  | cons p t ih =>
    obtain ⟨a, b⟩ := p
    simp only [List.map_cons, List.mem_cons] at h
    push_neg at h
    have ha : ¬ a = k := fun hh => h.1 hh.symm
    simp [getA, ha, ih h.2]

/-- After `Tcl_DeleteAssocData` on a unique-key list the key is gone. -/
theorem getA_delA_self (l : List (String × AssocVal)) (k : String)
    (h : (l.map Prod.fst).Nodup) : getA (delA l k) k = none := by
  induction l with
  | nil => rfl
  | cons p t ih =>
    obtain ⟨a, b⟩ := p
    simp only [List.map_cons, List.nodup_cons] at h
    by_cases ha : a = k
    · subst ha
      simp only [delA, if_pos rfl]
      exact getA_eq_none_of_not_mem t a h.1
    · simp [delA, getA, ha, ih h.2]

/-- `ifx::connect` either fails or produces exactly the success record:
counter bumped, `ifxconn<counter>` registered and returned. -/
theorem connect_ok_cases (e : OdbcEnv) (fs : String → Option (List (List Char)))
    (o : ConnectOracle) (st : InterpState) (objv : List String) :
    (IfxConnect_Cmd e fs o st objv).code = .error ∨
    IfxConnect_Cmd e fs o st objv =
      ⟨.ok, connName (st.conn_counter + 1),
       { assoc := setA st.assoc (connName (st.conn_counter + 1))
           (.conn ⟨o.henv, o.hdbc, true⟩),
         conn_counter := st.conn_counter + 1,
         result_counter := st.result_counter },
       build_connection_string (effectiveConfig e fs (objv.getD 1 ""))
         (objv.getD 1 "") (objv.getD 2 "") (objv.getD 3 "") 2048,
       true, false, true, false, true, false⟩ := by
  by_cases h1 : objv.length < 2 ∨ 4 < objv.length
  · left; simp [IfxConnect_Cmd, h1]
  · by_cases h2 : o.envAllocRet = SQL_SUCCESS
    · by_cases h3 : o.dbcAllocRet = SQL_SUCCESS
      · by_cases h4 : o.connRet = SQL_SUCCESS
        · right; simp [IfxConnect_Cmd, h1, h2, h3, h4]
        · by_cases h5 : o.connRet = SQL_SUCCESS_WITH_INFO
          · right; simp [IfxConnect_Cmd, h1, h2, h3, h5]
          · left; simp [IfxConnect_Cmd, h1, h2, h3, h4, h5]
      · left; simp [IfxConnect_Cmd, h1, h2, h3]
    · left; simp [IfxConnect_Cmd, h1, h2]

/-- `ifx::execute` either fails or produces exactly the success record:
counter bumped, `ifxresult<counter>` registered and returned. -/
theorem execute_ok_cases (oe : ExecOracle) (st : InterpState)
    (objv2 : List String) :
    (IfxExecute_Cmd oe st objv2).code = .error ∨
    IfxExecute_Cmd oe st objv2 =
      ⟨.ok, resName (st.result_counter + 1),
       { assoc := setA st.assoc (resName (st.result_counter + 1))
           (.result ⟨oe.hstmt, oe.numCols, (List.range oe.numCols).map oe.colName⟩),
         conn_counter := st.conn_counter,
         result_counter := st.result_counter + 1 },
       [objv2.getD 2 ""], false⟩ := by
  by_cases h1 : objv2.length < 3
  · left; simp [IfxExecute_Cmd, h1]
  · cases hga : getAssoc st (objv2[1]?.getD "") with
    | none => left; simp [IfxExecute_Cmd, h1, hga]
    | some v =>
      cases v with
      | result r => left; simp [IfxExecute_Cmd, h1, hga]
      | conn c =>
        by_cases hcn : c.connected = true
        · by_cases h2 : oe.allocRet = SQL_SUCCESS
          · by_cases h3 : oe.execRet ≠ SQL_SUCCESS ∧ oe.execRet ≠ SQL_SUCCESS_WITH_INFO
                ∧ oe.execRet ≠ SQL_NO_DATA
            · left; simp [IfxExecute_Cmd, h1, hga, hcn, h2, h3]
            · right; simp [IfxExecute_Cmd, h1, hga, hcn, h2, h3]
          · left; simp [IfxExecute_Cmd, h1, hga, hcn, h2]
        · left; simp [IfxExecute_Cmd, h1, hga, hcn]

/-- Claim C8: under the session invariant that no handle name above the
current counters is bound, every successful `ifx::connect` returns
`ifxconn<N>` with `N` the counter incremented before use, a name that was
unbound before the call; registering it leaves every previously bound
name's data untouched; and the invariant is preserved (first conjunct).
The same holds for `ifx::execute` and `ifxresult<N>` (second conjunct).
Since the counter strictly increases and `connName`/`resName` are
injective, each success yields a name distinct from all previously issued
names of its kind. -/
theorem handle_names_fresh (e : OdbcEnv)
    (fs : String → Option (List (List Char))) (o : ConnectOracle)
    (oe : ExecOracle) (st : InterpState) (objv objv2 : List String)
    (hci : connInv st) (hri : resInv st) :
    ((IfxConnect_Cmd e fs o st objv).code = .ok →
       (IfxConnect_Cmd e fs o st objv).result = connName (st.conn_counter + 1)
     ∧ (IfxConnect_Cmd e fs o st objv).state.conn_counter = st.conn_counter + 1
     ∧ getAssoc st (connName (st.conn_counter + 1)) = none
     ∧ (∀ k v, getAssoc st k = some v →
          getAssoc (IfxConnect_Cmd e fs o st objv).state k = some v)
     ∧ connInv (IfxConnect_Cmd e fs o st objv).state
     ∧ resInv (IfxConnect_Cmd e fs o st objv).state)
  ∧ ((IfxExecute_Cmd oe st objv2).code = .ok →
       (IfxExecute_Cmd oe st objv2).result = resName (st.result_counter + 1)
     ∧ (IfxExecute_Cmd oe st objv2).state.result_counter = st.result_counter + 1
     ∧ getAssoc st (resName (st.result_counter + 1)) = none
     ∧ (∀ k v, getAssoc st k = some v →
          getAssoc (IfxExecute_Cmd oe st objv2).state k = some v)
     ∧ connInv (IfxExecute_Cmd oe st objv2).state
     ∧ resInv (IfxExecute_Cmd oe st objv2).state) := by
  constructor
  · intro hok
    rcases connect_ok_cases e fs o st objv with hbad | heq
    · exact absurd (hok.symm.trans hbad) (by simp)
    · have hfresh : getAssoc st (connName (st.conn_counter + 1)) = none :=
        hci (st.conn_counter + 1) (Nat.lt_succ_self _)
      refine ⟨by rw [heq], by rw [heq], hfresh, ?_, ?_, ?_⟩
      · intro k v hkv
        rw [heq]
        show getA (setA st.assoc (connName (st.conn_counter + 1))
          (.conn ⟨o.henv, o.hdbc, true⟩)) k = some v
        rw [getA_setA]
        by_cases hk : connName (st.conn_counter + 1) = k
        · rw [← hk] at hkv
          rw [hfresh] at hkv
          cases hkv
        · rw [if_neg hk]
          exact hkv
      · intro j hj
        rw [heq] at hj ⊢
        have hj2 : st.conn_counter + 1 < j := hj
        show getA (setA st.assoc (connName (st.conn_counter + 1))
          (.conn ⟨o.henv, o.hdbc, true⟩)) (connName j) = none
        rw [getA_setA]
        have hne : ¬ connName (st.conn_counter + 1) = connName j := by
          intro he
          have := connName_inj he
          omega
        rw [if_neg hne]
        exact hci j (by omega)
      · intro j hj
        rw [heq] at hj ⊢
        have hj2 : st.result_counter < j := hj
        show getA (setA st.assoc (connName (st.conn_counter + 1))
          (.conn ⟨o.henv, o.hdbc, true⟩)) (resName j) = none
        rw [getA_setA]
        rw [if_neg (connName_ne_resName (st.conn_counter + 1) j)]
        exact hri j (by omega)
  · intro hok
    rcases execute_ok_cases oe st objv2 with hbad | heq
    · exact absurd (hok.symm.trans hbad) (by simp)
    · have hfresh : getAssoc st (resName (st.result_counter + 1)) = none :=
        hri (st.result_counter + 1) (Nat.lt_succ_self _)
      refine ⟨by rw [heq], by rw [heq], hfresh, ?_, ?_, ?_⟩
      · intro k v hkv
        rw [heq]
        show getA (setA st.assoc (resName (st.result_counter + 1))
          (.result ⟨oe.hstmt, oe.numCols, (List.range oe.numCols).map oe.colName⟩)) k
          = some v
        rw [getA_setA]
        by_cases hk : resName (st.result_counter + 1) = k
        · rw [← hk] at hkv
          rw [hfresh] at hkv
          cases hkv
        · rw [if_neg hk]
          exact hkv
      · intro j hj
        rw [heq] at hj ⊢
        have hj2 : st.conn_counter < j := hj
        show getA (setA st.assoc (resName (st.result_counter + 1))
          (.result ⟨oe.hstmt, oe.numCols, (List.range oe.numCols).map oe.colName⟩))
          (connName j) = none
        rw [getA_setA]
        have hne : ¬ resName (st.result_counter + 1) = connName j :=
          fun he => connName_ne_resName j (st.result_counter + 1) he.symm
        rw [if_neg hne]
        exact hci j (by omega)
      · intro j hj
        rw [heq] at hj ⊢
        have hj2 : st.result_counter + 1 < j := hj
        show getA (setA st.assoc (resName (st.result_counter + 1))
          (.result ⟨oe.hstmt, oe.numCols, (List.range oe.numCols).map oe.colName⟩))
          (resName j) = none
        rw [getA_setA]
        have hne : ¬ resName (st.result_counter + 1) = resName j := by
          intro he
          have := resName_inj he
          omega
        rw [if_neg hne]
        exact hri j (by omega)

/-- Concrete instantiation of `handle_names_fresh`: from a state whose
counters are 5 and 7 and which binds only the name `"c"`, a successful
connect returns the fresh `ifxconn6` and a successful execute the fresh
`ifxresult8`. -/
theorem handle_names_fresh_witness :
    (IfxConnect_Cmd eW fsNone oConnOk stConn ["ifx::connect", "mydsn"]).result
      = connName 6
  ∧ getAssoc stConn (connName 6) = none
  ∧ (IfxExecute_Cmd oExecOk stConn ["e", "c", "SELECT 1"]).result = resName 8
  ∧ getAssoc stConn (resName 8) = none := by
  have hcne : ∀ k : Nat, ¬ ("c" = connName k) := by
    intro k he
    have h2 := congrArg String.data he
    rw [connName, strData_append] at h2
    have e1 : ("c" : String).data = ['c'] := rfl
    have e2 : ("ifxconn" : String).data = ['i', 'f', 'x', 'c', 'o', 'n', 'n'] := rfl
    rw [e1, e2] at h2
    simp at h2
  have hrne : ∀ k : Nat, ¬ ("c" = resName k) := by
    intro k he
    have h2 := congrArg String.data he
    rw [resName, strData_append] at h2
    have e1 : ("c" : String).data = ['c'] := rfl
    have e2 : ("ifxresult" : String).data
        = ['i', 'f', 'x', 'r', 'e', 's', 'u', 'l', 't'] := rfl
    rw [e1, e2] at h2
    simp at h2
  have hinvc : connInv stConn := by
    intro k _
    show getA [("c", AssocVal.conn connW)] (connName k) = none
    simp [getA, hcne k]
  have hinvr : resInv stConn := by
    intro k _
    show getA [("c", AssocVal.conn connW)] (resName k) = none
    simp [getA, hrne k]
  have h := handle_names_fresh eW fsNone oConnOk oExecOk stConn
    ["ifx::connect", "mydsn"] ["e", "c", "SELECT 1"] hinvc hinvr
  have hok1 : (IfxConnect_Cmd eW fsNone oConnOk stConn
      ["ifx::connect", "mydsn"]).code = .ok := by decide
  have hok2 : (IfxExecute_Cmd oExecOk stConn ["e", "c", "SELECT 1"]).code = .ok := by
    decide
  obtain ⟨hr1, _, hf1, _, _, _⟩ := h.1 hok1
  obtain ⟨hr2, _, hf2, _, _, _⟩ := h.2 hok2
  exact ⟨hr1, hf1, hr2, hf2⟩

/-- Claim C9: with well-formed (unique-key) interpreter associated data,
`ifx::disconnect` and `ifx::close_result` called on a handle name with no
associated data perform no action and return TCL_OK (first conjunct), and
invoking either command twice on the same handle behaves like invoking it
once: the second invocation is a no-op returning TCL_OK (second and third
conjuncts). -/
theorem close_idempotent (st : InterpState) (c0 c1 name : String)
    (hnd : (st.assoc.map Prod.fst).Nodup) :
    (getAssoc st name = none →
        IfxDisconnect_Cmd st [c0, name] = ⟨.ok, st, [], false⟩
      ∧ IfxCloseResult_Cmd st [c1, name] = ⟨.ok, st, []⟩)
  ∧ IfxDisconnect_Cmd (IfxDisconnect_Cmd st [c0, name]).state [c0, name]
      = ⟨.ok, (IfxDisconnect_Cmd st [c0, name]).state, [], false⟩
  ∧ IfxCloseResult_Cmd (IfxCloseResult_Cmd st [c1, name]).state [c1, name]
      = ⟨.ok, (IfxCloseResult_Cmd st [c1, name]).state, []⟩ := by
  have hdel : getA (delA st.assoc name) name = none :=
    getA_delA_self st.assoc name hnd
  refine ⟨?_, ?_, ?_⟩
  · intro hga
    constructor
    · simp [IfxDisconnect_Cmd, hga]
    · simp [IfxCloseResult_Cmd, hga]
  · cases hga : getAssoc st name with
    | none =>
      have h1 : IfxDisconnect_Cmd st [c0, name] = ⟨.ok, st, [], false⟩ := by
        simp [IfxDisconnect_Cmd, hga]
      rw [h1]
      simp [IfxDisconnect_Cmd, hga]
    | some v =>
      have h1 : (IfxDisconnect_Cmd st [c0, name]).state
          = { st with assoc := delA st.assoc name } := by
        cases v <;> simp [IfxDisconnect_Cmd, hga]
      rw [h1]
      have hga2 : getAssoc { st with assoc := delA st.assoc name } name = none := hdel
      simp [IfxDisconnect_Cmd, hga2]
  · cases hga : getAssoc st name with
    | none =>
      have h1 : IfxCloseResult_Cmd st [c1, name] = ⟨.ok, st, []⟩ := by
        simp [IfxCloseResult_Cmd, hga]
      rw [h1]
      simp [IfxCloseResult_Cmd, hga]
    | some v =>
      have h1 : (IfxCloseResult_Cmd st [c1, name]).state
          = { st with assoc := delA st.assoc name } := by
        cases v <;> simp [IfxCloseResult_Cmd, hga]
      rw [h1]
      have hga2 : getAssoc { st with assoc := delA st.assoc name } name = none := hdel
      simp [IfxCloseResult_Cmd, hga2]

/-- Concrete instantiation of `close_idempotent`: an unknown handle name
is a TCL_OK no-op for both commands, and a second disconnect or
close_result of the bound name `"c"` is a no-op. -/
theorem close_idempotent_witness :
    (IfxDisconnect_Cmd stConn ["d", "zz"] = ⟨.ok, stConn, [], false⟩
      ∧ IfxCloseResult_Cmd stConn ["cr", "zz"] = ⟨.ok, stConn, []⟩)
  ∧ IfxDisconnect_Cmd (IfxDisconnect_Cmd stConn ["d", "c"]).state ["d", "c"]
      = ⟨.ok, (IfxDisconnect_Cmd stConn ["d", "c"]).state, [], false⟩
  ∧ IfxCloseResult_Cmd (IfxCloseResult_Cmd stConn ["cr", "c"]).state ["cr", "c"]
      = ⟨.ok, (IfxCloseResult_Cmd stConn ["cr", "c"]).state, []⟩ := by
  refine ⟨?_, ?_, ?_⟩
  · exact (close_idempotent stConn "d" "cr" "zz" (by decide)).1 (by decide)
  · exact (close_idempotent stConn "d" "cr" "c" (by decide)).2.1
  · exact (close_idempotent stConn "d" "cr" "c" (by decide)).2.2
